import Mathlib

/-!
Shallow embedding of the blueprint diff engine from
`nexus/types/src/deployment/blueprint_diff.rs`.

Sled-level `BTreeMap`s are embedded as functions `SledId → Option _`
(the per-sled computations of the engine are independent, each produced
map entry depends only on the corresponding input entries).  Per-sled
zone and dataset collections are embedded as lists iterated in id order,
mirroring the id-keyed `BTreeMap`s the source builds; per-sled disk
collections are embedded as `Finset`s, mirroring `BTreeSet<DiskIdentity>`.
Zone and dataset lists are assumed id-unique in the theorems that need it
(the source's `collect()` into an id-keyed map would collapse duplicates).
-/

/-- Generation number (`omicron_common::api::external::Generation`). -/
abbrev Generation := Nat

/-- Sled identifier (`SledUuid`), opaque. -/
abbrev SledId := Nat

/-- Zone identifier (`OmicronZoneUuid`), opaque. -/
abbrev ZoneId := Nat

/-- Modelled from the spec: the zone `kind` enum, rendered by `report_str`;
modelled as its report string (`report_str` is the identity here). -/
abbrev ZoneKind := String

/-- Zone disposition (`BlueprintZoneDisposition`): the only zone field
allowed to change in place. -/
inductive BlueprintZoneDisposition
  | inService
  | quiesced
  | expunged
deriving DecidableEq

/-- Modelled from the spec: ZoneRecord
`{ id, kind, disposition, underlay_ip, zone_type }` (the concrete
`BlueprintZoneConfig` type lives outside the given sources).  The
`underlay_ip` and the `zone_type` variant payload are modelled as opaque
strings compared by full equality, `zone_type` rendered by its debug
format. -/
structure BlueprintZoneConfig where
  id : ZoneId
  kind : ZoneKind
  disposition : BlueprintZoneDisposition
  underlay_ip : String
  zone_type : String
deriving DecidableEq

/-- Embeds `BlueprintZonesConfig` / `BlueprintOrCollectionZonesConfig`: the per-sled
zone generation plus the zone list (both the blueprint and the collection
flavor carry a zone generation). -/
structure BlueprintZonesConfig where
  generation : Generation
  zones : List BlueprintZoneConfig
deriving DecidableEq

def kindMismatchMsg (zb za : BlueprintZoneConfig) : String :=
  "mismatched zone kind: before: " ++ zb.kind ++ ", after: " ++ za.kind ++ "\n"

def ipMismatchMsg (zb za : BlueprintZoneConfig) : String :=
  "mismatched underlay IP: before: " ++ zb.underlay_ip ++ ", after: " ++ za.underlay_ip ++ "\n"

def zoneTypeMismatchMsg (za : BlueprintZoneConfig) : String :=
  "mismatched zone type: after: " ++ za.zone_type ++ "\n"

/-- A modified omicron zone: only `disposition` changed. -/
structure ModifiedZone where
  prior_disposition : BlueprintZoneDisposition
  zone : BlueprintZoneConfig
deriving DecidableEq

/-- An illegally modified zone (`BpDiffZoneError`). -/
structure BpDiffZoneError where
  zone_before : BlueprintZoneConfig
  zone_after : BlueprintZoneConfig
  reason : String
deriving DecidableEq

/-- The reason string accumulated by `ModifiedZone::new`: one message
pushed for each of the kind / underlay-IP / zone-type mismatches found,
in that order. -/
def mismatchReason (zb za : BlueprintZoneConfig) : String :=
  (if zb.kind ≠ za.kind then kindMismatchMsg zb za else "")
    ++ (if zb.underlay_ip ≠ za.underlay_ip then ipMismatchMsg zb za else "")
    ++ (if zb.zone_type ≠ za.zone_type then zoneTypeMismatchMsg za else "")

/-- Embeds `ModifiedZone::new`, the zone-modification validator.  An empty reason
yields a `ModifiedZone` carrying the prior disposition and the after
record, otherwise an error carrying both records and the reason. -/
def ModifiedZone.new (zb za : BlueprintZoneConfig) :
    Except BpDiffZoneError ModifiedZone :=
  if mismatchReason zb za = "" then
    Except.ok { prior_disposition := zb.disposition, zone := za }
  else
    Except.error { zone_before := zb, zone_after := za, reason := mismatchReason zb za }

/-- Modelled from the spec: the stable zone sort key `(kind, id)`
(`zone_sort_key` lives outside the given sources). -/
def zone_sort_key (z : BlueprintZoneConfig) : ZoneKind × ZoneId := (z.kind, z.id)

/-- Lexicographic comparison of character lists by code point (the string
order underlying the zone-kind `Ord`). -/
def strLtB : List Char → List Char → Bool
  | [], [] => false
  | [], _ :: _ => true
  | _ :: _, [] => false
  | c :: cs, d :: ds =>
    if c.toNat < d.toNat then true
    else if d.toNat < c.toNat then false
    else strLtB cs ds

/-- Strict order on zone kinds (report strings). -/
def kindLt (a b : ZoneKind) : Bool := strLtB a.data b.data

/-- Lexicographic comparison of zone sort keys. -/
def keyLe (x y : ZoneKind × ZoneId) : Bool :=
  kindLt x.1 y.1 || (x.1 == y.1 && decide (x.2 ≤ y.2))

def zoneLe (a b : BlueprintZoneConfig) : Bool :=
  keyLe (zone_sort_key a) (zone_sort_key b)

def modifiedZoneLe (a b : ModifiedZone) : Bool :=
  keyLe (zone_sort_key a.zone) (zone_sort_key b.zone)

def zoneIdLe (a b : BlueprintZoneConfig) : Bool := decide (a.id ≤ b.id)

/-- Sorted insertion (the embedding of the sort). -/
def insertSorted {α : Type} (le : α → α → Bool) (x : α) : List α → List α
  | [] => [x]
  | y :: ys => if le x y then x :: y :: ys else y :: insertSorted le x ys

/-- Sorting by a comparison, modelling `sort_unstable_by_key`. -/
def sortBy {α : Type} (le : α → α → Bool) (l : List α) : List α :=
  l.foldr (insertSorted le) []

theorem insertSorted_perm {α : Type} (le : α → α → Bool) (x : α)
    (l : List α) : (insertSorted le x l).Perm (x :: l) := by
  induction l with
  | nil => exact List.Perm.refl _
  | cons y ys ih =>
    simp only [insertSorted]
    split
    · exact List.Perm.refl _
    · exact (ih.cons y).trans (List.Perm.swap x y ys)

theorem sortBy_perm {α : Type} (le : α → α → Bool) (l : List α) :
    (sortBy le l).Perm l := by
  induction l with
  | nil => exact List.Perm.refl _
  | cons x xs ih => exact (insertSorted_perm le x (sortBy le xs)).trans (ih.cons x)

theorem insertSorted_sorted {α : Type} (le : α → α → Bool)
    (htrans : ∀ a b c, le a b = true → le b c = true → le a c = true)
    (htot : ∀ a b, (le a b || le b a) = true) (x : α) (l : List α)
    (hl : l.Pairwise (fun a b => le a b = true)) :
    (insertSorted le x l).Pairwise (fun a b => le a b = true) := by
  induction l with
  | nil => simp [insertSorted]
  | cons y ys ih =>
    rcases List.pairwise_cons.mp hl with ⟨hy, hys⟩
    simp only [insertSorted]
    split
    next hxy =>
      refine List.Pairwise.cons ?_ hl
      intro z hz
      rcases List.mem_cons.mp hz with rfl | hz
      · exact hxy
      · exact htrans x y z hxy (hy z hz)
    next hxy =>
      have hyx : le y x = true := by
        have h := htot x y
        rw [Bool.or_eq_true] at h
        rcases h with h | h
        · exact absurd h hxy
        · exact h
      refine List.Pairwise.cons ?_ (ih hys)
      intro z hz
      rcases List.mem_cons.mp ((insertSorted_perm le x ys).mem_iff.mp hz)
        with rfl | hz
      · exact hyx
      · exact hy z hz

theorem sortBy_sorted {α : Type} (le : α → α → Bool)
    (htrans : ∀ a b c, le a b = true → le b c = true → le a c = true)
    (htot : ∀ a b, (le a b || le b a) = true) (l : List α) :
    (sortBy le l).Pairwise (fun a b => le a b = true) := by
  induction l with
  | nil => exact List.Pairwise.nil
  | cons x xs ih => exact insertSorted_sorted le htrans htot x _ ih

/-- Embeds `sort_unstable_by_key(zone_sort_key)`. -/
def sortZones (zs : List BlueprintZoneConfig) : List BlueprintZoneConfig :=
  sortBy zoneLe zs

def sortModifiedZones (zs : List ModifiedZone) : List ModifiedZone :=
  sortBy modifiedZoneLe zs

/-- Collecting a zone list into the id-keyed `BTreeMap` and iterating it:
the list in ascending id order. -/
def sortZonesById (zs : List BlueprintZoneConfig) : List BlueprintZoneConfig :=
  sortBy zoneIdLe zs

/-- Lookup in the id-keyed after map. -/
def findById (l : List BlueprintZoneConfig) (i : ZoneId) : Option BlueprintZoneConfig :=
  l.find? (fun z => z.id == i)

/-- Embeds `BTreeMap::remove` on the id-keyed after map. -/
def removeById (l : List BlueprintZoneConfig) (i : ZoneId) : List BlueprintZoneConfig :=
  l.eraseP (fun z => z.id == i)

/-- The per-sled bucket accumulators of `BpDiffZones::new`. -/
structure ZoneBuckets where
  unchanged : List BlueprintZoneConfig
  removed : List BlueprintZoneConfig
  modified : List ModifiedZone
  errors : List BpDiffZoneError
  added : List BlueprintZoneConfig
deriving DecidableEq

/-- The per-sled body of `BpDiffZones::new` for a sled present on both
sides: iterate `before_by_id` (ascending id order), matching and consuming
entries of `after_by_id`; leftover after entries are the added zones. -/
def zoneDiffLoop : List BlueprintZoneConfig → List BlueprintZoneConfig → ZoneBuckets
  | [], afterRemaining =>
    { unchanged := [], removed := [], modified := [], errors := [],
      added := afterRemaining }
  | zb :: rest, afterRemaining =>
    match findById afterRemaining zb.id with
    | some za =>
      let B := zoneDiffLoop rest (removeById afterRemaining zb.id)
      if zb = za then { B with unchanged := za :: B.unchanged }
      else
        match ModifiedZone.new zb za with
        | Except.ok mz => { B with modified := mz :: B.modified }
        | Except.error e => { B with errors := e :: B.errors }
    | none =>
      let B := zoneDiffLoop rest afterRemaining
      { B with removed := zb :: B.removed }

/-- Diffs for omicron zones on a given sled with a given state. -/
structure BpDiffZoneDetails where
  generation_before : Option Generation
  generation_after : Option Generation
  zones : List BlueprintZoneConfig
deriving DecidableEq

/-- Details of modified zones on a given sled. -/
structure BpDiffZonesModified where
  generation_before : Generation
  generation_after : Generation
  zones : List ModifiedZone
deriving DecidableEq

/-- Errors arising from illegally modified zone fields on a given sled. -/
structure BpDiffZoneErrors where
  generation_before : Generation
  generation_after : Generation
  errors : List BpDiffZoneError
deriving DecidableEq

/-- All known zones across all known sleds, their various states, and
errors (`BpDiffZones`). -/
structure BpDiffZones where
  added : SledId → Option BpDiffZoneDetails
  removed : SledId → Option BpDiffZoneDetails
  unchanged : SledId → Option BpDiffZoneDetails
  modified : SledId → Option BpDiffZonesModified
  errors : SledId → Option BpDiffZoneErrors

/-- Embeds `BpDiffZones::new`.  For a sled present on both sides the per-sled loop
produces the buckets, each inserted only when non-empty, sorted by the zone
sort key (errors keep loop order).  For a before-only sled every zone is
removed (generation-after absent).  For an after-only sled with a non-empty
zone list, the zones are added in their original order (generation-before
absent). -/
def BpDiffZones.new (zbefore zafter : SledId → Option BlueprintZonesConfig) :
    BpDiffZones where
  added := fun s =>
    match zbefore s, zafter s with
    | some bz, some az =>
      let B := zoneDiffLoop (sortZonesById bz.zones) (sortZonesById az.zones)
      if B.added.isEmpty then none
      else some { generation_before := some bz.generation,
                  generation_after := some az.generation,
                  zones := sortZones B.added }
    | none, some az =>
      if az.zones.isEmpty then none
      else some { generation_before := none,
                  generation_after := some az.generation,
                  zones := az.zones }
    | _, none => none
  removed := fun s =>
    match zbefore s, zafter s with
    | some bz, some az =>
      let B := zoneDiffLoop (sortZonesById bz.zones) (sortZonesById az.zones)
      if B.removed.isEmpty then none
      else some { generation_before := some bz.generation,
                  generation_after := some az.generation,
                  zones := sortZones B.removed }
    | some bz, none =>
      if bz.zones.isEmpty then none
      else some { generation_before := some bz.generation,
                  generation_after := none,
                  zones := sortZones bz.zones }
    | none, _ => none
  unchanged := fun s =>
    match zbefore s, zafter s with
    | some bz, some az =>
      let B := zoneDiffLoop (sortZonesById bz.zones) (sortZonesById az.zones)
      if B.unchanged.isEmpty then none
      else some { generation_before := some bz.generation,
                  generation_after := some az.generation,
                  zones := sortZones B.unchanged }
    | _, _ => none
  modified := fun s =>
    match zbefore s, zafter s with
    | some bz, some az =>
      let B := zoneDiffLoop (sortZonesById bz.zones) (sortZonesById az.zones)
      if B.modified.isEmpty then none
      else some { generation_before := bz.generation,
                  generation_after := az.generation,
                  zones := sortModifiedZones B.modified }
    | _, _ => none
  errors := fun s =>
    match zbefore s, zafter s with
    | some bz, some az =>
      let B := zoneDiffLoop (sortZonesById bz.zones) (sortZonesById az.zones)
      if B.errors.isEmpty then none
      else some { generation_before := bz.generation,
                  generation_after := az.generation,
                  errors := B.errors }
    | _, _ => none

/-- Physical disk identity `{ vendor, model, serial }`, a value type
compared by full equality. -/
structure DiskIdentity where
  vendor : String
  model : String
  serial : String
deriving DecidableEq

/-- Embeds `BlueprintOrCollectionDisksConfig`: disks from inventory have no
generation number. -/
structure BlueprintOrCollectionDisksConfig where
  generation : Option Generation
  disks : Finset DiskIdentity

/-- Embeds `BlueprintPhysicalDisksConfig`: the per-sled disk set of a blueprint,
collected into a `BTreeSet<DiskIdentity>` by the diff. -/
structure BlueprintPhysicalDisksConfig where
  generation : Generation
  disks : Finset DiskIdentity

/-- Embeds `DiffPhysicalDisksDetails`: disks added, removed, or unmodified on a
given sled. -/
structure DiffPhysicalDisksDetails where
  before_generation : Option Generation
  after_generation : Option Generation
  disks : Finset DiskIdentity

/-- Embeds `BpDiffPhysicalDisks`: only added / removed / unchanged buckets exist
for physical disks. -/
structure BpDiffPhysicalDisks where
  added : SledId → Option DiffPhysicalDisksDetails
  removed : SledId → Option DiffPhysicalDisksDetails
  unchanged : SledId → Option DiffPhysicalDisksDetails

/-- Embeds `BpDiffPhysicalDisks::new`.  For a sled present on both sides:
added `= after − before`, removed `= before − after`, unchanged
`= after ∩ before`, each inserted only when non-empty.  For a before-only
sled the whole before set is inserted as removed (unconditionally, as in
the source).  For an after-only sled a non-empty disk set is added. -/
def BpDiffPhysicalDisks.new
    (dbefore : SledId → Option BlueprintOrCollectionDisksConfig)
    (dafter : SledId → Option BlueprintPhysicalDisksConfig) :
    BpDiffPhysicalDisks where
  added := fun s =>
    match dbefore s, dafter s with
    | some b, some a =>
      let d := a.disks \ b.disks
      if d = ∅ then none
      else some { before_generation := b.generation,
                  after_generation := some a.generation, disks := d }
    | none, some a =>
      if a.disks = ∅ then none
      else some { before_generation := none,
                  after_generation := some a.generation, disks := a.disks }
    | _, none => none
  removed := fun s =>
    match dbefore s, dafter s with
    | some b, some a =>
      let d := b.disks \ a.disks
      if d = ∅ then none
      else some { before_generation := b.generation,
                  after_generation := some a.generation, disks := d }
    | some b, none =>
      some { before_generation := b.generation,
             after_generation := none, disks := b.disks }
    | none, _ => none
  unchanged := fun s =>
    match dbefore s, dafter s with
    | some b, some a =>
      let d := a.disks ∩ b.disks
      if d = ∅ then none
      else some { before_generation := b.generation,
                  after_generation := some a.generation, disks := d }
    | _, _ => none

/-- Dataset identifier (`CollectionDatasetIdentifier`), derived from the
dataset record. -/
abbrev DatasetId := Nat

/-- Modelled from the spec: a dataset record
(`BlueprintDatasetConfigForDiff`, outside the given sources), keyed by the
identifier derived from it, remaining displayable fields opaque and
compared by full equality. -/
structure BlueprintDatasetConfigForDiff where
  id : DatasetId
  fields : List String
deriving DecidableEq

/-- Embeds `BlueprintOrCollectionDatasetsConfig`: datasets from inventory have no
generation number. -/
structure BlueprintOrCollectionDatasetsConfig where
  generation : Option Generation
  datasets : List BlueprintDatasetConfigForDiff

/-- Embeds `BlueprintDatasetsConfig`: the per-sled dataset map of a blueprint. -/
structure BlueprintDatasetsConfig where
  generation : Generation
  datasets : List BlueprintDatasetConfigForDiff

/-- A dataset modified in place: both records, same identifier. -/
structure ModifiedDataset where
  before : BlueprintDatasetConfigForDiff
  after : BlueprintDatasetConfigForDiff
deriving DecidableEq

/-- Embeds `DiffDatasetsDetails`: datasets added, removed, or unmodified on a
given sled, id-keyed. -/
structure DiffDatasetsDetails where
  before_generation : Option Generation
  after_generation : Option Generation
  datasets : List BlueprintDatasetConfigForDiff
deriving DecidableEq

/-- Embeds `BpDiffDatasetsModified`: modified datasets on a given sled. -/
structure BpDiffDatasetsModified where
  generation_before : Option Generation
  generation_after : Option Generation
  datasets : List ModifiedDataset
deriving DecidableEq

/-- Embeds `BpDiffDatasets`: added / removed / modified / unchanged buckets. -/
structure BpDiffDatasets where
  added : SledId → Option DiffDatasetsDetails
  removed : SledId → Option DiffDatasetsDetails
  modified : SledId → Option BpDiffDatasetsModified
  unchanged : SledId → Option DiffDatasetsDetails

def datasetIdLe (a b : BlueprintDatasetConfigForDiff) : Bool := decide (a.id ≤ b.id)

/-- Collecting a dataset list into the id-keyed `BTreeMap` and iterating
it: the list in ascending id order. -/
def sortDatasetsById (ds : List BlueprintDatasetConfigForDiff) :
    List BlueprintDatasetConfigForDiff :=
  sortBy datasetIdLe ds

def findByDatasetId (l : List BlueprintDatasetConfigForDiff) (i : DatasetId) :
    Option BlueprintDatasetConfigForDiff :=
  l.find? (fun d => d.id == i)

def removeByDatasetId (l : List BlueprintDatasetConfigForDiff) (i : DatasetId) :
    List BlueprintDatasetConfigForDiff :=
  l.eraseP (fun d => d.id == i)

/-- The per-sled bucket accumulators of `BpDiffDatasets::new`. -/
structure DatasetBuckets where
  unchanged : List BlueprintDatasetConfigForDiff
  removed : List BlueprintDatasetConfigForDiff
  modified : List ModifiedDataset
  added : List BlueprintDatasetConfigForDiff
deriving DecidableEq

/-- The per-sled body of `BpDiffDatasets::new` for a sled present on both
sides: iterate the before map in id order, matching and consuming entries
of the after map (`added`, initially the whole after side); leftover
entries of the after map are the added datasets. -/
def datasetDiffLoop :
    List BlueprintDatasetConfigForDiff → List BlueprintDatasetConfigForDiff →
    DatasetBuckets
  | [], afterRemaining =>
    { unchanged := [], removed := [], modified := [], added := afterRemaining }
  | db :: rest, afterRemaining =>
    match findByDatasetId afterRemaining db.id with
    | some da =>
      let B := datasetDiffLoop rest (removeByDatasetId afterRemaining db.id)
      if db = da then { B with unchanged := da :: B.unchanged }
      else { B with modified := { before := db, after := da } :: B.modified }
    | none =>
      let B := datasetDiffLoop rest afterRemaining
      { B with removed := db :: B.removed }

/-- Embeds `BpDiffDatasets::new`.  For a sled present on both sides the per-sled
loop produces the buckets, each inserted only when non-empty (id-keyed
maps iterate in id order).  For a before-only sled the whole before map is
inserted as removed (unconditionally, as in the source).  For an
after-only sled a non-empty dataset map is added. -/
def BpDiffDatasets.new
    (dsbefore : SledId → Option BlueprintOrCollectionDatasetsConfig)
    (dsafter : SledId → Option BlueprintDatasetsConfig) :
    BpDiffDatasets where
  added := fun s =>
    match dsbefore s, dsafter s with
    | some b, some a =>
      let B := datasetDiffLoop (sortDatasetsById b.datasets) (sortDatasetsById a.datasets)
      if B.added.isEmpty then none
      else some { before_generation := b.generation,
                  after_generation := some a.generation, datasets := B.added }
    | none, some a =>
      if a.datasets.isEmpty then none
      else some { before_generation := none,
                  after_generation := some a.generation,
                  datasets := sortDatasetsById a.datasets }
    | _, none => none
  removed := fun s =>
    match dsbefore s, dsafter s with
    | some b, some a =>
      let B := datasetDiffLoop (sortDatasetsById b.datasets) (sortDatasetsById a.datasets)
      if B.removed.isEmpty then none
      else some { before_generation := b.generation,
                  after_generation := some a.generation, datasets := B.removed }
    | some b, none =>
      some { before_generation := b.generation,
             after_generation := none, datasets := sortDatasetsById b.datasets }
    | none, _ => none
  modified := fun s =>
    match dsbefore s, dsafter s with
    | some b, some a =>
      let B := datasetDiffLoop (sortDatasetsById b.datasets) (sortDatasetsById a.datasets)
      if B.modified.isEmpty then none
      else some { generation_before := b.generation,
                  generation_after := some a.generation, datasets := B.modified }
    | _, _ => none
  unchanged := fun s =>
    match dsbefore s, dsafter s with
    | some b, some a =>
      let B := datasetDiffLoop (sortDatasetsById b.datasets) (sortDatasetsById a.datasets)
      if B.unchanged.isEmpty then none
      else some { before_generation := b.generation,
                  after_generation := some a.generation, datasets := B.unchanged }
    | _, _ => none

/-- Sled lifecycle state. -/
inductive SledState
  | active
  | decommissioned
deriving DecidableEq

/-- The decommissioning consistency patch of `BlueprintDiff::new`: a sled
whose before state is `Decommissioned`, with no after-state entry but a
still-present after-side zones or disks entry, gets an after state of
`Decommissioned` synthesized before classification. -/
def patchAfterState (before_state after_state : SledId → Option SledState)
    (after_zones : SledId → Option BlueprintZonesConfig)
    (after_disks : SledId → Option BlueprintPhysicalDisksConfig) :
    SledId → Option SledState :=
  fun s =>
    if before_state s = some SledState.decommissioned ∧ after_state s = none
        ∧ ((after_zones s).isSome ∨ (after_disks s).isSome) then
      some SledState.decommissioned
    else after_state s

/-- Summarizes the differences between two blueprints (`BlueprintDiff`);
`after_state` is the patched after-state map. -/
structure BlueprintDiff where
  before_state : SledId → Option SledState
  after_state : SledId → Option SledState
  zones : BpDiffZones
  physical_disks : BpDiffPhysicalDisks
  datasets : BpDiffDatasets
  sleds_added : SledId → Bool
  sleds_removed : SledId → Bool
  sleds_unchanged : SledId → Bool
  sleds_modified : SledId → Bool

/-- A sled appears on the before side: it has an entry in the before
state, zone, disk, or dataset map (`before_sleds` of the source,
pointwise). -/
def beforePresent (before_state : SledId → Option SledState)
    (before_zones : SledId → Option BlueprintZonesConfig)
    (before_disks : SledId → Option BlueprintOrCollectionDisksConfig)
    (before_datasets : SledId → Option BlueprintOrCollectionDatasetsConfig)
    (s : SledId) : Bool :=
  (before_state s).isSome || (before_zones s).isSome
    || (before_disks s).isSome || (before_datasets s).isSome

/-- A sled appears on the after side: it has an entry in the after state,
zone, disk, or dataset map (`after_sleds` of the source, pointwise). -/
def afterPresent (after_state : SledId → Option SledState)
    (after_zones : SledId → Option BlueprintZonesConfig)
    (after_disks : SledId → Option BlueprintPhysicalDisksConfig)
    (after_datasets : SledId → Option BlueprintDatasetsConfig)
    (s : SledId) : Bool :=
  (after_state s).isSome || (after_zones s).isSome
    || (after_disks s).isSome || (after_datasets s).isSome

/-- The retain condition of `BlueprintDiff::new`: the sled state changed,
or some non-unchanged bucket of some category diff has an entry for the
sled. -/
def modifiedCondition (before_state after_state : SledId → Option SledState)
    (zones : BpDiffZones) (physical_disks : BpDiffPhysicalDisks)
    (datasets : BpDiffDatasets) (s : SledId) : Bool :=
  decide (before_state s ≠ after_state s)
    || (physical_disks.added s).isSome || (physical_disks.removed s).isSome
    || (datasets.added s).isSome || (datasets.modified s).isSome
    || (datasets.removed s).isSome
    || (zones.added s).isSome || (zones.removed s).isSome
    || (zones.modified s).isSome || (zones.errors s).isSome

/-- Embeds `BlueprintDiff::new`: apply the decommissioning patch, compute the
before/after host sets from the state, zone, disk, and dataset maps,
classify hosts as added (after-only) or removed (before-only), run the
three category diffs, and classify the remaining hosts as modified when
the state changed or any non-unchanged category bucket has an entry for
them, otherwise unchanged. -/
def BlueprintDiff.new
    (before_state : SledId → Option SledState)
    (before_zones : SledId → Option BlueprintZonesConfig)
    (before_disks : SledId → Option BlueprintOrCollectionDisksConfig)
    (before_datasets : SledId → Option BlueprintOrCollectionDatasetsConfig)
    (after_state : SledId → Option SledState)
    (after_zones : SledId → Option BlueprintZonesConfig)
    (after_disks : SledId → Option BlueprintPhysicalDisksConfig)
    (after_datasets : SledId → Option BlueprintDatasetsConfig) :
    BlueprintDiff :=
  let patched := patchAfterState before_state after_state after_zones after_disks
  let beforeSleds := beforePresent before_state before_zones before_disks before_datasets
  let afterSleds := afterPresent patched after_zones after_disks after_datasets
  let allSleds := fun s => beforeSleds s || afterSleds s
  let sleds_added := fun s => afterSleds s && !beforeSleds s
  let sleds_removed := fun s => beforeSleds s && !afterSleds s
  let zones := BpDiffZones.new before_zones after_zones
  let physical_disks := BpDiffPhysicalDisks.new before_disks after_disks
  let datasets := BpDiffDatasets.new before_datasets after_datasets
  let uom := fun s => allSleds s && !sleds_added s && !sleds_removed s
  let sleds_modified := fun s =>
    uom s && modifiedCondition before_state patched zones physical_disks datasets s
  let sleds_unchanged := fun s => uom s && !sleds_modified s
  { before_state := before_state, after_state := patched, zones := zones,
    physical_disks := physical_disks, datasets := datasets,
    sleds_added := sleds_added, sleds_removed := sleds_removed,
    sleds_unchanged := sleds_unchanged, sleds_modified := sleds_modified }

/-- All sleds mentioned in either input snapshot (raw, pre-patch after
state). -/
def allSledsInput (before_state : SledId → Option SledState)
    (before_zones : SledId → Option BlueprintZonesConfig)
    (before_disks : SledId → Option BlueprintOrCollectionDisksConfig)
    (before_datasets : SledId → Option BlueprintOrCollectionDatasetsConfig)
    (after_state : SledId → Option SledState)
    (after_zones : SledId → Option BlueprintZonesConfig)
    (after_disks : SledId → Option BlueprintPhysicalDisksConfig)
    (after_datasets : SledId → Option BlueprintDatasetsConfig)
    (s : SledId) : Bool :=
  beforePresent before_state before_zones before_disks before_datasets s
    || afterPresent after_state after_zones after_disks after_datasets s

/-! ### Basic lemmas about the id-keyed helpers -/

def zoneIds (l : List BlueprintZoneConfig) : List ZoneId := l.map (fun z => z.id)

def modifiedIds (l : List ModifiedZone) : List ZoneId := l.map (fun m => m.zone.id)

def errorIds (l : List BpDiffZoneError) : List ZoneId := l.map (fun e => e.zone_before.id)

theorem findById_some {l : List BlueprintZoneConfig} {i : ZoneId}
    {z : BlueprintZoneConfig} (h : findById l i = some z) : z.id = i ∧ z ∈ l := by
  have hm := List.mem_of_find?_eq_some h
  have hp := List.find?_some h
  simp only [beq_iff_eq] at hp
  exact ⟨hp, hm⟩

theorem findById_none {l : List BlueprintZoneConfig} {i : ZoneId}
    (h : findById l i = none) : i ∉ zoneIds l := by
  rw [findById, List.find?_eq_none] at h
  simp only [zoneIds, List.mem_map]
  rintro ⟨z, hz, rfl⟩
  exact h z hz (by simp)

theorem removeById_map_id (l : List BlueprintZoneConfig) (i : ZoneId) :
    zoneIds (removeById l i) = (zoneIds l).erase i := by
  induction l with
  | nil => rfl
  | cons z t ih =>
    by_cases h : z.id = i
    · simp [removeById, zoneIds, List.eraseP_cons, List.erase_cons, h]
    · simpa [removeById, zoneIds, List.eraseP_cons, List.erase_cons, h] using ih

theorem findById_removeById_ne (l : List BlueprintZoneConfig) {i j : ZoneId}
    (hne : j ≠ i) : findById (removeById l i) j = findById l j := by
  induction l with
  | nil => rfl
  | cons z t ih =>
    by_cases h : z.id = i
    · have h1 : removeById (z :: t) i = t := by
        simp [removeById, List.eraseP_cons, h]
      have hz : z.id ≠ j := fun hh => hne (hh.symm.trans h)
      have h2 : findById (z :: t) j = findById t j := by
        simp [findById, List.find?_cons, hz]
      rw [h1, h2]
    · have h1 : removeById (z :: t) i = z :: removeById t i := by
        simp [removeById, List.eraseP_cons, h]
      rw [h1]
      by_cases hj : z.id = j
      · simp [findById, List.find?_cons, hj]
      · have hb : (z.id == j) = false := by simp [hj]
        simp only [findById, List.find?_cons, hb] at ih ⊢
        exact ih

/-! ### Lemmas about the zone-modification validator -/

theorem append_left_empty {s t : String} (h : s ++ t = "") : s = "" := by
  have h2 := congrArg String.length h
  rw [String.length_append] at h2
  have h0 : ("" : String).length = 0 := rfl
  have h3 : s.length = 0 := by omega
  cases s with
  | mk d =>
    cases d with
    | nil => rfl
    | cons c cs => simp [String.length] at h3

theorem append_ne_empty_of_left {s : String} (hs : s ≠ "") (t : String) :
    s ++ t ≠ "" := fun h => hs (append_left_empty h)

theorem append_right_empty {s t : String} (h : s ++ t = "") : t = "" := by
  have h2 := congrArg String.length h
  rw [String.length_append] at h2
  have h0 : ("" : String).length = 0 := rfl
  have h3 : t.length = 0 := by omega
  cases t with
  | mk d =>
    cases d with
    | nil => rfl
    | cons c cs => simp [String.length] at h3

theorem kindMismatchMsg_ne_empty (zb za : BlueprintZoneConfig) :
    kindMismatchMsg zb za ≠ "" := by
  unfold kindMismatchMsg
  exact append_ne_empty_of_left (append_ne_empty_of_left
    (append_ne_empty_of_left (append_ne_empty_of_left (by decide) _) _) _) _

theorem ipMismatchMsg_ne_empty (zb za : BlueprintZoneConfig) :
    ipMismatchMsg zb za ≠ "" := by
  unfold ipMismatchMsg
  exact append_ne_empty_of_left (append_ne_empty_of_left
    (append_ne_empty_of_left (append_ne_empty_of_left (by decide) _) _) _) _

theorem zoneTypeMismatchMsg_ne_empty (za : BlueprintZoneConfig) :
    zoneTypeMismatchMsg za ≠ "" := by
  unfold zoneTypeMismatchMsg
  exact append_ne_empty_of_left (append_ne_empty_of_left (by decide) _) _

theorem mismatchReason_ne_empty {zb za : BlueprintZoneConfig}
    (h : zb.kind ≠ za.kind ∨ zb.underlay_ip ≠ za.underlay_ip
      ∨ zb.zone_type ≠ za.zone_type) : mismatchReason zb za ≠ "" := by
  unfold mismatchReason
  intro hc
  have h1 := append_left_empty (append_left_empty hc)
  have h2 := append_right_empty (append_left_empty hc)
  have h3 := append_right_empty hc
  rcases h with h | h | h
  · rw [if_pos h] at h1
    exact kindMismatchMsg_ne_empty zb za h1
  · rw [if_pos h] at h2
    exact ipMismatchMsg_ne_empty zb za h2
  · rw [if_pos h] at h3
    exact zoneTypeMismatchMsg_ne_empty za h3

theorem mismatchReason_empty {zb za : BlueprintZoneConfig}
    (hk : zb.kind = za.kind) (hip : zb.underlay_ip = za.underlay_ip)
    (hzt : zb.zone_type = za.zone_type) : mismatchReason zb za = "" := by
  simp [mismatchReason, hk, hip, hzt]

/-- All three structural fields match: the validator accepts, carrying the
prior disposition and the after record. -/
theorem ModifiedZone.new_ok {zb za : BlueprintZoneConfig}
    (hk : zb.kind = za.kind) (hip : zb.underlay_ip = za.underlay_ip)
    (hzt : zb.zone_type = za.zone_type) :
    ModifiedZone.new zb za
      = Except.ok { prior_disposition := zb.disposition, zone := za } := by
  rw [ModifiedZone.new, if_pos (mismatchReason_empty hk hip hzt)]

/-- Some structural field mismatches: the validator rejects, carrying both
records and the accumulated reason. -/
theorem ModifiedZone.new_error {zb za : BlueprintZoneConfig}
    (h : zb.kind ≠ za.kind ∨ zb.underlay_ip ≠ za.underlay_ip
      ∨ zb.zone_type ≠ za.zone_type) :
    ModifiedZone.new zb za
      = Except.error { zone_before := zb, zone_after := za,
                       reason := mismatchReason zb za } := by
  rw [ModifiedZone.new, if_neg (mismatchReason_ne_empty h)]

theorem ModifiedZone.new_ok_elim {zb za : BlueprintZoneConfig}
    {mz : ModifiedZone} (h : ModifiedZone.new zb za = Except.ok mz) :
    mz = { prior_disposition := zb.disposition, zone := za } := by
  rw [ModifiedZone.new] at h
  by_cases hr : mismatchReason zb za = ""
  · rw [if_pos hr] at h
    exact (Except.ok.injEq _ _ ▸ congrArg id h).symm ▸ by
      cases h
      rfl
  · rw [if_neg hr] at h
    cases h

theorem ModifiedZone.new_error_elim {zb za : BlueprintZoneConfig}
    {e : BpDiffZoneError} (h : ModifiedZone.new zb za = Except.error e) :
    e = { zone_before := zb, zone_after := za,
          reason := mismatchReason zb za } := by
  rw [ModifiedZone.new] at h
  by_cases hr : mismatchReason zb za = ""
  · rw [if_pos hr] at h
    cases h
  · rw [if_neg hr] at h
    cases h
    rfl

/-! ### The per-sled zone loop: case equations and id partition -/

theorem zoneDiffLoop_cons_none {zb : BlueprintZoneConfig}
    {rest as : List BlueprintZoneConfig} (h : findById as zb.id = none) :
    zoneDiffLoop (zb :: rest) as =
      { zoneDiffLoop rest as with
        removed := zb :: (zoneDiffLoop rest as).removed } := by
  simp only [zoneDiffLoop, h]

theorem zoneDiffLoop_cons_eq {zb za : BlueprintZoneConfig}
    {rest as : List BlueprintZoneConfig} (h : findById as zb.id = some za)
    (he : zb = za) :
    zoneDiffLoop (zb :: rest) as =
      { zoneDiffLoop rest (removeById as zb.id) with
        unchanged := za :: (zoneDiffLoop rest (removeById as zb.id)).unchanged } := by
  simp only [zoneDiffLoop, h, if_pos he]

theorem zoneDiffLoop_cons_ok {zb za : BlueprintZoneConfig} {mz : ModifiedZone}
    {rest as : List BlueprintZoneConfig} (h : findById as zb.id = some za)
    (hne : zb ≠ za) (hmz : ModifiedZone.new zb za = Except.ok mz) :
    zoneDiffLoop (zb :: rest) as =
      { zoneDiffLoop rest (removeById as zb.id) with
        modified := mz :: (zoneDiffLoop rest (removeById as zb.id)).modified } := by
  simp only [zoneDiffLoop, h, if_neg hne, hmz]

theorem zoneDiffLoop_cons_error {zb za : BlueprintZoneConfig}
    {e : BpDiffZoneError} {rest as : List BlueprintZoneConfig}
    (h : findById as zb.id = some za) (hne : zb ≠ za)
    (hmz : ModifiedZone.new zb za = Except.error e) :
    zoneDiffLoop (zb :: rest) as =
      { zoneDiffLoop rest (removeById as zb.id) with
        errors := e :: (zoneDiffLoop rest (removeById as zb.id)).errors } := by
  simp only [zoneDiffLoop, h, if_neg hne, hmz]

/-- Every before zone lands in exactly one of the unchanged / removed /
modified / errored buckets (counted by id, multiset equality). -/
theorem zoneDiffLoop_partition (bs : List BlueprintZoneConfig) :
    ∀ as : List BlueprintZoneConfig,
    (↑(zoneIds (zoneDiffLoop bs as).unchanged)
      + ↑(zoneIds (zoneDiffLoop bs as).removed)
      + ↑(modifiedIds (zoneDiffLoop bs as).modified)
      + ↑(errorIds (zoneDiffLoop bs as).errors) : Multiset ZoneId)
      = ↑(zoneIds bs) := by
  induction bs with
  | nil => intro as; simp [zoneDiffLoop, zoneIds, modifiedIds, errorIds]
  | cons zb rest ih =>
    intro as
    cases h : findById as zb.id with
    | none =>
      rw [zoneDiffLoop_cons_none h]
      have hrec := ih as
      simp only [zoneIds, modifiedIds, errorIds, List.map_cons,
        ← Multiset.cons_coe, Multiset.cons_add, Multiset.add_cons] at hrec ⊢
      rw [hrec]
    | some za =>
      have hza := (findById_some h).1
      by_cases he : zb = za
      · rw [zoneDiffLoop_cons_eq h he]
        have hrec := ih (removeById as zb.id)
        simp only [zoneIds, modifiedIds, errorIds, List.map_cons,
          ← Multiset.cons_coe, Multiset.cons_add, Multiset.add_cons, hza]
          at hrec ⊢
        rw [hrec]
      · cases hmz : ModifiedZone.new zb za with
        | ok mz =>
          have hmzz : mz.zone.id = zb.id := by
            rw [ModifiedZone.new_ok_elim hmz]
            exact hza
          rw [zoneDiffLoop_cons_ok h he hmz]
          have hrec := ih (removeById as zb.id)
          simp only [zoneIds, modifiedIds, errorIds, List.map_cons,
            ← Multiset.cons_coe, Multiset.cons_add, Multiset.add_cons, hmzz]
            at hrec ⊢
          rw [hrec]
        | error e =>
          have hez : e.zone_before.id = zb.id := by
            rw [ModifiedZone.new_error_elim hmz]
          rw [zoneDiffLoop_cons_error h he hmz]
          have hrec := ih (removeById as zb.id)
          simp only [zoneIds, modifiedIds, errorIds, List.map_cons,
            ← Multiset.cons_coe, Multiset.cons_add, Multiset.add_cons, hez]
            at hrec ⊢
          rw [hrec]

/-- Computes `zoneIds` of a cons, as a finset. -/
theorem zoneIds_cons_toFinset (zb : BlueprintZoneConfig)
    (rest : List BlueprintZoneConfig) :
    (zoneIds (zb :: rest)).toFinset = insert zb.id (zoneIds rest).toFinset := by
  simp [zoneIds]

/-- The leftover added zones are exactly the after ids minus the before
ids (as id sets, under id-uniqueness of both sides). -/
theorem zoneDiffLoop_added (bs : List BlueprintZoneConfig) :
    ∀ as : List BlueprintZoneConfig, (zoneIds bs).Nodup → (zoneIds as).Nodup →
    (zoneIds (zoneDiffLoop bs as).added).toFinset
      = (zoneIds as).toFinset \ (zoneIds bs).toFinset := by
  induction bs with
  | nil =>
    intro as _ _
    simp [zoneDiffLoop, zoneIds]
  | cons zb rest ih =>
    intro as hb ha
    have hi : zb.id ∉ (zoneIds rest).toFinset := by
      simp only [zoneIds, List.map_cons, List.nodup_cons] at hb
      simpa [zoneIds, List.mem_toFinset, List.mem_map] using hb.1
    have hb' : (zoneIds rest).Nodup := by
      simp only [zoneIds, List.map_cons, List.nodup_cons] at hb
      exact hb.2
    cases h : findById as zb.id with
    | none =>
      have hiA : zb.id ∉ (zoneIds as).toFinset := by
        simpa using findById_none h
      rw [zoneDiffLoop_cons_none h]
      have hrec := ih as hb' ha
      simp only at hrec ⊢
      rw [hrec, zoneIds_cons_toFinset]
      ext x
      by_cases hx : x = zb.id
      · subst hx
        simp [hiA]
      · simp [hx]
    | some za =>
      have hza := (findById_some h).1
      have hiA : zb.id ∈ (zoneIds as).toFinset := by
        simp only [zoneIds, List.mem_toFinset, List.mem_map]
        exact ⟨za, (findById_some h).2, hza⟩
      have hmapera : zoneIds (removeById as zb.id) = (zoneIds as).erase zb.id :=
        removeById_map_id as zb.id
      have ha' : (zoneIds (removeById as zb.id)).Nodup := by
        rw [hmapera]
        exact ha.erase zb.id
      have herafin : (zoneIds (removeById as zb.id)).toFinset
          = (zoneIds as).toFinset.erase zb.id := by
        rw [hmapera]
        ext x
        simp [List.Nodup.mem_erase_iff ha, Finset.mem_erase]
      have hrec := ih (removeById as zb.id) hb' ha'
      rw [herafin] at hrec
      have hgoal : ((zoneIds as).toFinset.erase zb.id) \ (zoneIds rest).toFinset
          = (zoneIds as).toFinset \ (zoneIds (zb :: rest)).toFinset := by
        rw [zoneIds_cons_toFinset]
        ext x
        by_cases hx : x = zb.id
        · subst hx
          simp
        · simp [hx]
      by_cases he : zb = za
      · rw [zoneDiffLoop_cons_eq h he]
        simp only at hrec ⊢
        rw [hrec, hgoal]
      · cases hmz : ModifiedZone.new zb za with
        | ok mz =>
          rw [zoneDiffLoop_cons_ok h he hmz]
          simp only at hrec ⊢
          rw [hrec, hgoal]
        | error e =>
          rw [zoneDiffLoop_cons_error h he hmz]
          simp only at hrec ⊢
          rw [hrec, hgoal]

/-- Diffing a zone list against itself: everything unchanged. -/
theorem zoneDiffLoop_self (l : List BlueprintZoneConfig) :
    zoneDiffLoop l l =
      { unchanged := l, removed := [], modified := [], errors := [],
        added := [] } := by
  induction l with
  | nil => rfl
  | cons z t ih =>
    have hfind : findById (z :: t) z.id = some z := by
      simp [findById, List.find?_cons]
    have hrem : removeById (z :: t) z.id = t := by
      simp [removeById, List.eraseP_cons]
    rw [zoneDiffLoop_cons_eq hfind rfl, hrem, ih]

/-- The before-zones of the error bucket form a sublist of the before
list: errors appear in before-iteration order. -/
theorem zoneDiffLoop_errors_sublist (bs : List BlueprintZoneConfig) :
    ∀ as : List BlueprintZoneConfig,
    ((zoneDiffLoop bs as).errors.map (fun e => e.zone_before)).Sublist bs := by
  induction bs with
  | nil => intro as; simp [zoneDiffLoop]
  | cons zb rest ih =>
    intro as
    cases h : findById as zb.id with
    | none =>
      rw [zoneDiffLoop_cons_none h]
      exact (ih as).cons zb
    | some za =>
      by_cases he : zb = za
      · rw [zoneDiffLoop_cons_eq h he]
        exact (ih (removeById as zb.id)).cons zb
      · cases hmz : ModifiedZone.new zb za with
        | ok mz =>
          rw [zoneDiffLoop_cons_ok h he hmz]
          exact (ih (removeById as zb.id)).cons zb
        | error e =>
          rw [zoneDiffLoop_cons_error h he hmz]
          have hez : e.zone_before = zb := by
            rw [ModifiedZone.new_error_elim hmz]
          simp only [List.map_cons, hez]
          exact (ih (removeById as zb.id)).cons₂ zb

/-- A matched, unequal pair accepted by the validator lands in the
modified bucket of the per-sled loop. -/
theorem zoneDiffLoop_modified_mem (bs : List BlueprintZoneConfig) :
    ∀ as : List BlueprintZoneConfig, ∀ {zb za : BlueprintZoneConfig}
    {mz : ModifiedZone},
    findById bs zb.id = some zb → findById as zb.id = some za → zb ≠ za →
    ModifiedZone.new zb za = Except.ok mz →
    mz ∈ (zoneDiffLoop bs as).modified := by
  induction bs with
  | nil => intro as zb za mz hfb; simp [findById] at hfb
  | cons z rest ih =>
    intro as zb za mz hfb hfa hne hok
    by_cases hz : z.id = zb.id
    · have hzzb : z = zb := by
        have h1 : List.find? (fun w => w.id == zb.id) (z :: rest) = some z :=
          List.find?_cons_of_pos _ (by simp [hz])
        rw [findById] at hfb
        exact Option.some.inj (h1.symm.trans hfb)
      subst hzzb
      rw [zoneDiffLoop_cons_ok hfa hne hok]
      exact List.mem_cons_self _ _
    · have hfb' : findById rest zb.id = some zb := by
        have h1 : List.find? (fun w => w.id == zb.id) (z :: rest)
            = List.find? (fun w => w.id == zb.id) rest :=
          List.find?_cons_of_neg _ (by simp [hz])
        rw [findById] at hfb
        rw [findById]
        exact h1.symm.trans hfb
      cases hfaz : findById as z.id with
      | none =>
        rw [zoneDiffLoop_cons_none hfaz]
        exact ih as hfb' hfa hne hok
      | some za' =>
        have hfa' : findById (removeById as z.id) zb.id = some za :=
          (findById_removeById_ne as (fun hh => hz hh.symm)).trans hfa
        by_cases he : z = za'
        · rw [zoneDiffLoop_cons_eq hfaz he]
          exact ih (removeById as z.id) hfb' hfa' hne hok
        · cases hmz : ModifiedZone.new z za' with
          | ok mz' =>
            rw [zoneDiffLoop_cons_ok hfaz he hmz]
            exact List.mem_cons_of_mem _ (ih (removeById as z.id) hfb' hfa' hne hok)
          | error e' =>
            rw [zoneDiffLoop_cons_error hfaz he hmz]
            exact ih (removeById as z.id) hfb' hfa' hne hok

/-- A matched, unequal pair rejected by the validator lands in the
errored bucket of the per-sled loop. -/
theorem zoneDiffLoop_error_mem (bs : List BlueprintZoneConfig) :
    ∀ as : List BlueprintZoneConfig, ∀ {zb za : BlueprintZoneConfig}
    {e : BpDiffZoneError},
    findById bs zb.id = some zb → findById as zb.id = some za → zb ≠ za →
    ModifiedZone.new zb za = Except.error e →
    e ∈ (zoneDiffLoop bs as).errors := by
  induction bs with
  | nil => intro as zb za e hfb; simp [findById] at hfb
  | cons z rest ih =>
    intro as zb za e hfb hfa hne herr
    by_cases hz : z.id = zb.id
    · have hzzb : z = zb := by
        have h1 : List.find? (fun w => w.id == zb.id) (z :: rest) = some z :=
          List.find?_cons_of_pos _ (by simp [hz])
        rw [findById] at hfb
        exact Option.some.inj (h1.symm.trans hfb)
      subst hzzb
      rw [zoneDiffLoop_cons_error hfa hne herr]
      exact List.mem_cons_self _ _
    · have hfb' : findById rest zb.id = some zb := by
        have h1 : List.find? (fun w => w.id == zb.id) (z :: rest)
            = List.find? (fun w => w.id == zb.id) rest :=
          List.find?_cons_of_neg _ (by simp [hz])
        rw [findById] at hfb
        rw [findById]
        exact h1.symm.trans hfb
      cases hfaz : findById as z.id with
      | none =>
        rw [zoneDiffLoop_cons_none hfaz]
        exact ih as hfb' hfa hne herr
      | some za' =>
        have hfa' : findById (removeById as z.id) zb.id = some za :=
          (findById_removeById_ne as (fun hh => hz hh.symm)).trans hfa
        by_cases he : z = za'
        · rw [zoneDiffLoop_cons_eq hfaz he]
          exact ih (removeById as z.id) hfb' hfa' hne herr
        · cases hmz : ModifiedZone.new z za' with
          | ok mz' =>
            rw [zoneDiffLoop_cons_ok hfaz he hmz]
            exact ih (removeById as z.id) hfb' hfa' hne herr
          | error e' =>
            rw [zoneDiffLoop_cons_error hfaz he hmz]
            exact List.mem_cons_of_mem _ (ih (removeById as z.id) hfb' hfa' hne herr)

/-! ### The per-sled dataset loop: parallel lemmas -/

def datasetIds (l : List BlueprintDatasetConfigForDiff) : List DatasetId :=
  l.map (fun d => d.id)

def modifiedDatasetIds (l : List ModifiedDataset) : List DatasetId :=
  l.map (fun m => m.before.id)

theorem findByDatasetId_some {l : List BlueprintDatasetConfigForDiff}
    {i : DatasetId} {d : BlueprintDatasetConfigForDiff}
    (h : findByDatasetId l i = some d) : d.id = i ∧ d ∈ l := by
  have hm := List.mem_of_find?_eq_some h
  have hp := List.find?_some h
  simp only [beq_iff_eq] at hp
  exact ⟨hp, hm⟩

theorem findByDatasetId_none {l : List BlueprintDatasetConfigForDiff}
    {i : DatasetId} (h : findByDatasetId l i = none) : i ∉ datasetIds l := by
  rw [findByDatasetId, List.find?_eq_none] at h
  simp only [datasetIds, List.mem_map]
  rintro ⟨d, hd, rfl⟩
  exact h d hd (by simp)

theorem removeByDatasetId_map_id (l : List BlueprintDatasetConfigForDiff)
    (i : DatasetId) :
    datasetIds (removeByDatasetId l i) = (datasetIds l).erase i := by
  induction l with
  | nil => rfl
  | cons d t ih =>
    by_cases h : d.id = i
    · simp [removeByDatasetId, datasetIds, List.eraseP_cons, List.erase_cons, h]
    · simpa [removeByDatasetId, datasetIds, List.eraseP_cons, List.erase_cons, h]
        using ih

theorem datasetDiffLoop_cons_none {db : BlueprintDatasetConfigForDiff}
    {rest as : List BlueprintDatasetConfigForDiff}
    (h : findByDatasetId as db.id = none) :
    datasetDiffLoop (db :: rest) as =
      { datasetDiffLoop rest as with
        removed := db :: (datasetDiffLoop rest as).removed } := by
  simp only [datasetDiffLoop, h]

theorem datasetDiffLoop_cons_eq {db da : BlueprintDatasetConfigForDiff}
    {rest as : List BlueprintDatasetConfigForDiff}
    (h : findByDatasetId as db.id = some da) (he : db = da) :
    datasetDiffLoop (db :: rest) as =
      { datasetDiffLoop rest (removeByDatasetId as db.id) with
        unchanged := da :: (datasetDiffLoop rest (removeByDatasetId as db.id)).unchanged } := by
  simp only [datasetDiffLoop, h, if_pos he]

theorem datasetDiffLoop_cons_mod {db da : BlueprintDatasetConfigForDiff}
    {rest as : List BlueprintDatasetConfigForDiff}
    (h : findByDatasetId as db.id = some da) (hne : db ≠ da) :
    datasetDiffLoop (db :: rest) as =
      { datasetDiffLoop rest (removeByDatasetId as db.id) with
        modified := { before := db, after := da }
          :: (datasetDiffLoop rest (removeByDatasetId as db.id)).modified } := by
  simp only [datasetDiffLoop, h, if_neg hne]

/-- Every before dataset lands in exactly one of the unchanged / removed /
modified buckets (counted by id, multiset equality). -/
theorem datasetDiffLoop_partition (bs : List BlueprintDatasetConfigForDiff) :
    ∀ as : List BlueprintDatasetConfigForDiff,
    (↑(datasetIds (datasetDiffLoop bs as).unchanged)
      + ↑(datasetIds (datasetDiffLoop bs as).removed)
      + ↑(modifiedDatasetIds (datasetDiffLoop bs as).modified)
      : Multiset DatasetId)
      = ↑(datasetIds bs) := by
  induction bs with
  | nil => intro as; simp [datasetDiffLoop, datasetIds, modifiedDatasetIds]
  | cons db rest ih =>
    intro as
    cases h : findByDatasetId as db.id with
    | none =>
      rw [datasetDiffLoop_cons_none h]
      have hrec := ih as
      simp only [datasetIds, modifiedDatasetIds, List.map_cons,
        ← Multiset.cons_coe, Multiset.cons_add, Multiset.add_cons] at hrec ⊢
      rw [hrec]
    | some da =>
      have hda := (findByDatasetId_some h).1
      by_cases he : db = da
      · rw [datasetDiffLoop_cons_eq h he]
        have hrec := ih (removeByDatasetId as db.id)
        simp only [datasetIds, modifiedDatasetIds, List.map_cons,
          ← Multiset.cons_coe, Multiset.cons_add, Multiset.add_cons, hda]
          at hrec ⊢
        rw [hrec]
      · rw [datasetDiffLoop_cons_mod h he]
        have hrec := ih (removeByDatasetId as db.id)
        simp only [datasetIds, modifiedDatasetIds, List.map_cons,
          ← Multiset.cons_coe, Multiset.cons_add, Multiset.add_cons]
          at hrec ⊢
        rw [hrec]

theorem datasetIds_cons_toFinset (db : BlueprintDatasetConfigForDiff)
    (rest : List BlueprintDatasetConfigForDiff) :
    (datasetIds (db :: rest)).toFinset
      = insert db.id (datasetIds rest).toFinset := by
  simp [datasetIds]

/-- The leftover added datasets are exactly the after ids minus the
before ids (as id sets, under id-uniqueness of both sides). -/
theorem datasetDiffLoop_added (bs : List BlueprintDatasetConfigForDiff) :
    ∀ as : List BlueprintDatasetConfigForDiff,
    (datasetIds bs).Nodup → (datasetIds as).Nodup →
    (datasetIds (datasetDiffLoop bs as).added).toFinset
      = (datasetIds as).toFinset \ (datasetIds bs).toFinset := by
  induction bs with
  | nil =>
    intro as _ _
    simp [datasetDiffLoop, datasetIds]
  | cons db rest ih =>
    intro as hb ha
    have hb' : (datasetIds rest).Nodup := by
      simp only [datasetIds, List.map_cons, List.nodup_cons] at hb
      exact hb.2
    cases h : findByDatasetId as db.id with
    | none =>
      have hiA : db.id ∉ (datasetIds as).toFinset := by
        simpa using findByDatasetId_none h
      rw [datasetDiffLoop_cons_none h]
      have hrec := ih as hb' ha
      simp only at hrec ⊢
      rw [hrec, datasetIds_cons_toFinset]
      ext x
      by_cases hx : x = db.id
      · subst hx
        simp [hiA]
      · simp [hx]
    | some da =>
      have hda := (findByDatasetId_some h).1
      have hmapera : datasetIds (removeByDatasetId as db.id)
          = (datasetIds as).erase db.id := removeByDatasetId_map_id as db.id
      have ha' : (datasetIds (removeByDatasetId as db.id)).Nodup := by
        rw [hmapera]
        exact ha.erase db.id
      have herafin : (datasetIds (removeByDatasetId as db.id)).toFinset
          = (datasetIds as).toFinset.erase db.id := by
        rw [hmapera]
        ext x
        simp [List.Nodup.mem_erase_iff ha, Finset.mem_erase]
      have hrec := ih (removeByDatasetId as db.id) hb' ha'
      rw [herafin] at hrec
      have hgoal : ((datasetIds as).toFinset.erase db.id)
            \ (datasetIds rest).toFinset
          = (datasetIds as).toFinset \ (datasetIds (db :: rest)).toFinset := by
        rw [datasetIds_cons_toFinset]
        ext x
        by_cases hx : x = db.id
        · subst hx
          simp
        · simp [hx]
      by_cases he : db = da
      · rw [datasetDiffLoop_cons_eq h he]
        simp only at hrec ⊢
        rw [hrec, hgoal]
      · rw [datasetDiffLoop_cons_mod h he]
        simp only at hrec ⊢
        rw [hrec, hgoal]

/-- Diffing a dataset list against itself: everything unchanged. -/
theorem datasetDiffLoop_self (l : List BlueprintDatasetConfigForDiff) :
    datasetDiffLoop l l =
      { unchanged := l, removed := [], modified := [], added := [] } := by
  induction l with
  | nil => rfl
  | cons d t ih =>
    have hfind : findByDatasetId (d :: t) d.id = some d := by
      simp [findByDatasetId, List.find?_cons]
    have hrem : removeByDatasetId (d :: t) d.id = t := by
      simp [removeByDatasetId, List.eraseP_cons]
    rw [datasetDiffLoop_cons_eq hfind rfl, hrem, ih]

/-! ### Bucket id-set and generation-pair helpers for the statements -/

def zoneDetailsIds : Option BpDiffZoneDetails → Finset ZoneId
  | none => ∅
  | some d => (zoneIds d.zones).toFinset

def zonesModifiedBucketIds : Option BpDiffZonesModified → Finset ZoneId
  | none => ∅
  | some m => (modifiedIds m.zones).toFinset

def zoneErrorsBucketIds : Option BpDiffZoneErrors → Finset ZoneId
  | none => ∅
  | some e => (errorIds e.errors).toFinset

def configZoneIds : Option BlueprintZonesConfig → Finset ZoneId
  | none => ∅
  | some c => (zoneIds c.zones).toFinset

def diskDetailsSet : Option DiffPhysicalDisksDetails → Finset DiskIdentity
  | none => ∅
  | some d => d.disks

def datasetDetailsIds : Option DiffDatasetsDetails → Finset DatasetId
  | none => ∅
  | some d => (datasetIds d.datasets).toFinset

def datasetsModifiedBucketIds : Option BpDiffDatasetsModified → Finset DatasetId
  | none => ∅
  | some m => (modifiedDatasetIds m.datasets).toFinset

def beforeDatasetIds : Option BlueprintOrCollectionDatasetsConfig → Finset DatasetId
  | none => ∅
  | some c => (datasetIds c.datasets).toFinset

def afterDatasetIds : Option BlueprintDatasetsConfig → Finset DatasetId
  | none => ∅
  | some c => (datasetIds c.datasets).toFinset

/-- Id-uniqueness of a per-sled zone list, trivial for an absent sled. -/
def zonesConfigNodup : Option BlueprintZonesConfig → Prop
  | none => True
  | some c => (zoneIds c.zones).Nodup

instance (o : Option BlueprintZonesConfig) : Decidable (zonesConfigNodup o) := by
  cases o with
  | none => exact isTrue trivial
  | some c => exact List.nodupDecidable _

/-- Id-uniqueness of a per-sled (before) dataset list. -/
def datasetsConfigNodupB : Option BlueprintOrCollectionDatasetsConfig → Prop
  | none => True
  | some c => (datasetIds c.datasets).Nodup

instance (o : Option BlueprintOrCollectionDatasetsConfig) :
    Decidable (datasetsConfigNodupB o) := by
  cases o with
  | none => exact isTrue trivial
  | some c => exact List.nodupDecidable _

/-- Id-uniqueness of a per-sled (after) dataset list. -/
def datasetsConfigNodupA : Option BlueprintDatasetsConfig → Prop
  | none => True
  | some c => (datasetIds c.datasets).Nodup

instance (o : Option BlueprintDatasetsConfig) :
    Decidable (datasetsConfigNodupA o) := by
  cases o with
  | none => exact isTrue trivial
  | some c => exact List.nodupDecidable _

/-- The (before, after) generation pairs recorded by the zone buckets that
exist for a sled (modified and errored entries record bare generations). -/
def zonesGenPairs (Z : BpDiffZones) (s : SledId) :
    List (Option Generation × Option Generation) :=
  (match Z.unchanged s with
   | some d => [(d.generation_before, d.generation_after)]
   | none => [])
  ++ (match Z.removed s with
      | some d => [(d.generation_before, d.generation_after)]
      | none => [])
  ++ (match Z.added s with
      | some d => [(d.generation_before, d.generation_after)]
      | none => [])
  ++ (match Z.modified s with
      | some m => [(some m.generation_before, some m.generation_after)]
      | none => [])
  ++ (match Z.errors s with
      | some e => [(some e.generation_before, some e.generation_after)]
      | none => [])

/-- The (before, after) generation pairs recorded by the disk buckets that
exist for a sled. -/
def disksGenPairs (P : BpDiffPhysicalDisks) (s : SledId) :
    List (Option Generation × Option Generation) :=
  (match P.unchanged s with
   | some d => [(d.before_generation, d.after_generation)]
   | none => [])
  ++ (match P.removed s with
      | some d => [(d.before_generation, d.after_generation)]
      | none => [])
  ++ (match P.added s with
      | some d => [(d.before_generation, d.after_generation)]
      | none => [])

/-- The (before, after) generation pairs recorded by the dataset buckets
that exist for a sled. -/
def datasetsGenPairs (D : BpDiffDatasets) (s : SledId) :
    List (Option Generation × Option Generation) :=
  (match D.unchanged s with
   | some d => [(d.before_generation, d.after_generation)]
   | none => [])
  ++ (match D.removed s with
      | some d => [(d.before_generation, d.after_generation)]
      | none => [])
  ++ (match D.added s with
      | some d => [(d.before_generation, d.after_generation)]
      | none => [])
  ++ (match D.modified s with
      | some m => [(m.generation_before, m.generation_after)]
      | none => [])

/-! ### Sample concrete inputs used by the witnesses -/

def zoneA1 : BlueprintZoneConfig :=
  { id := 1, kind := "a", disposition := BlueprintZoneDisposition.inService,
    underlay_ip := "ip1", zone_type := "t1" }

def zoneA2 : BlueprintZoneConfig :=
  { id := 1, kind := "a", disposition := BlueprintZoneDisposition.expunged,
    underlay_ip := "ip1", zone_type := "t1" }

def zoneB1 : BlueprintZoneConfig :=
  { id := 2, kind := "a", disposition := BlueprintZoneDisposition.inService,
    underlay_ip := "ip2", zone_type := "t2" }

def zoneB2 : BlueprintZoneConfig :=
  { id := 2, kind := "b", disposition := BlueprintZoneDisposition.inService,
    underlay_ip := "ip2", zone_type := "t2" }

def zoneC1 : BlueprintZoneConfig :=
  { id := 3, kind := "a", disposition := BlueprintZoneDisposition.inService,
    underlay_ip := "ip3", zone_type := "t3" }

def zoneC2 : BlueprintZoneConfig :=
  { id := 3, kind := "b", disposition := BlueprintZoneDisposition.inService,
    underlay_ip := "ip4", zone_type := "t4" }

/-! ### Claim C3 -/

/-- C3: for every same-id zone pair compared by the modification
validator: matching kind, underlay IP and zone type with a differing
disposition validates as modified, carrying the prior disposition and the
after record, landing in the modified bucket and never the errored one; a
pair differing only in kind validates as errored with a reason containing
both kind values, landing in the errored bucket; and the reason of any
rejected pair concatenates one message per mismatch found. -/
theorem C3_modification_validator (zb za : BlueprintZoneConfig) :
    (zb.id = za.id → zb.kind = za.kind → zb.underlay_ip = za.underlay_ip →
      zb.zone_type = za.zone_type → zb.disposition ≠ za.disposition →
      ModifiedZone.new zb za
        = Except.ok { prior_disposition := zb.disposition, zone := za }
      ∧ (∀ e : BpDiffZoneError, ModifiedZone.new zb za ≠ Except.error e)
      ∧ ∀ bs as : List BlueprintZoneConfig,
          findById bs zb.id = some zb → findById as zb.id = some za →
          ({ prior_disposition := zb.disposition, zone := za } : ModifiedZone)
            ∈ (zoneDiffLoop bs as).modified)
    ∧ (zb.kind ≠ za.kind → zb.underlay_ip = za.underlay_ip →
        zb.zone_type = za.zone_type →
        ModifiedZone.new zb za
          = Except.error { zone_before := zb, zone_after := za,
                           reason := kindMismatchMsg zb za }
        ∧ (∃ u v : String, kindMismatchMsg zb za = u ++ zb.kind ++ v)
        ∧ (∃ u v : String, kindMismatchMsg zb za = u ++ za.kind ++ v)
        ∧ ∀ bs as : List BlueprintZoneConfig,
            findById bs zb.id = some zb → findById as zb.id = some za →
            ({ zone_before := zb, zone_after := za,
               reason := kindMismatchMsg zb za } : BpDiffZoneError)
              ∈ (zoneDiffLoop bs as).errors)
    ∧ (∀ e : BpDiffZoneError, ModifiedZone.new zb za = Except.error e →
        e.reason =
          (if zb.kind ≠ za.kind then kindMismatchMsg zb za else "")
            ++ (if zb.underlay_ip ≠ za.underlay_ip then ipMismatchMsg zb za
                else "")
            ++ (if zb.zone_type ≠ za.zone_type then zoneTypeMismatchMsg za
                else "")) := by
  refine ⟨?_, ?_, ?_⟩
  · intro _ hk hip hzt hd
    have hok := ModifiedZone.new_ok hk hip hzt
    refine ⟨hok, ?_, ?_⟩
    · intro e he
      rw [hok] at he
      exact Except.noConfusion he
    · intro bs as hfb hfa
      have hne : zb ≠ za := fun hh => hd (by rw [hh])
      exact zoneDiffLoop_modified_mem bs as hfb hfa hne hok
  · intro hk hip hzt
    have hreason : mismatchReason zb za = kindMismatchMsg zb za := by
      unfold mismatchReason
      rw [if_pos hk, if_neg (by simp [hip]), if_neg (by simp [hzt]),
        String.append_empty, String.append_empty]
    have herr := ModifiedZone.new_error (Or.inl hk)
    rw [hreason] at herr
    refine ⟨herr, ?_, ?_, ?_⟩
    · exact ⟨"mismatched zone kind: before: ", ", after: " ++ za.kind ++ "\n",
        by simp [kindMismatchMsg, String.append_assoc]⟩
    · exact ⟨"mismatched zone kind: before: " ++ zb.kind ++ ", after: ", "\n",
        by simp [kindMismatchMsg, String.append_assoc]⟩
    · intro bs as hfb hfa
      have hne : zb ≠ za := fun hh => hk (by rw [hh])
      exact zoneDiffLoop_error_mem bs as hfb hfa hne herr
  · intro e he
    rw [ModifiedZone.new_error_elim he]
    rfl

/-- Witness for C3 at concrete zone pairs. -/
theorem C3_modification_validator_witness :
    ModifiedZone.new zoneA1 zoneA2
      = Except.ok { prior_disposition := zoneA1.disposition, zone := zoneA2 }
    ∧ ModifiedZone.new zoneB1 zoneB2
      = Except.error { zone_before := zoneB1, zone_after := zoneB2,
                       reason := kindMismatchMsg zoneB1 zoneB2 }
    ∧ ({ zone_before := zoneC1, zone_after := zoneC2,
         reason := mismatchReason zoneC1 zoneC2 } : BpDiffZoneError).reason
        = (if zoneC1.kind ≠ zoneC2.kind then kindMismatchMsg zoneC1 zoneC2
           else "")
          ++ (if zoneC1.underlay_ip ≠ zoneC2.underlay_ip
              then ipMismatchMsg zoneC1 zoneC2 else "")
          ++ (if zoneC1.zone_type ≠ zoneC2.zone_type
              then zoneTypeMismatchMsg zoneC2 else "") := by
  refine ⟨?_, ?_, ?_⟩
  · exact ((C3_modification_validator zoneA1 zoneA2).1 rfl rfl rfl rfl
      (by decide)).1
  · exact ((C3_modification_validator zoneB1 zoneB2).2.1 (by decide) rfl
      rfl).1
  · exact (C3_modification_validator zoneC1 zoneC2).2.2 _
      (ModifiedZone.new_error (Or.inl (by decide)))

/-! ### Claim C5 -/

/-- C5: for every host present in both snapshots, the disk diff satisfies
added `= after − before`, removed `= before − after`, unchanged
`= before ∩ after` under full-value equality; the three sets are pairwise
disjoint and cover `before ∪ after`. -/
theorem C5_disk_set_reconciliation
    (db : SledId → Option BlueprintOrCollectionDisksConfig)
    (da : SledId → Option BlueprintPhysicalDisksConfig)
    (s : SledId) (cb : BlueprintOrCollectionDisksConfig)
    (ca : BlueprintPhysicalDisksConfig)
    (hb : db s = some cb) (ha : da s = some ca) :
    diskDetailsSet ((BpDiffPhysicalDisks.new db da).added s)
      = ca.disks \ cb.disks
    ∧ diskDetailsSet ((BpDiffPhysicalDisks.new db da).removed s)
      = cb.disks \ ca.disks
    ∧ diskDetailsSet ((BpDiffPhysicalDisks.new db da).unchanged s)
      = cb.disks ∩ ca.disks
    ∧ List.Pairwise (fun x y => Disjoint x y)
        [ca.disks \ cb.disks, cb.disks \ ca.disks, cb.disks ∩ ca.disks]
    ∧ (ca.disks \ cb.disks) ∪ (cb.disks \ ca.disks) ∪ (cb.disks ∩ ca.disks)
      = cb.disks ∪ ca.disks := by
  refine ⟨?_, ?_, ?_, ?_, ?_⟩
  · simp only [BpDiffPhysicalDisks.new, hb, ha]
    split
    next hemp => simp [diskDetailsSet, hemp]
    next => simp [diskDetailsSet]
  · simp only [BpDiffPhysicalDisks.new, hb, ha]
    split
    next hemp => simp [diskDetailsSet, hemp]
    next => simp [diskDetailsSet]
  · simp only [BpDiffPhysicalDisks.new, hb, ha]
    split
    next hemp =>
      rw [Finset.inter_comm] at hemp
      simp [diskDetailsSet, hemp]
    next => simp [diskDetailsSet, Finset.inter_comm]
  · simp only [List.pairwise_cons, List.mem_cons, List.not_mem_nil]
    refine ⟨?_, ?_, ?_⟩
    · intro y hy
      rcases hy with rfl | rfl | h
      · rw [Finset.disjoint_left]
        intro x hx hy
        simp only [Finset.mem_sdiff] at hx hy
        exact hx.2 hy.1
      · rw [Finset.disjoint_left]
        intro x hx hy
        simp only [Finset.mem_sdiff, Finset.mem_inter] at hx hy
        exact hx.2 hy.1
      · simp at h
    · intro y hy
      rcases hy with rfl | h
      · rw [Finset.disjoint_left]
        intro x hx hy
        simp only [Finset.mem_sdiff, Finset.mem_inter] at hx hy
        exact hx.2 hy.2
      · simp at h
    · exact ⟨fun y hy => absurd hy id, List.Pairwise.nil⟩
  · ext x
    simp only [Finset.mem_union, Finset.mem_sdiff, Finset.mem_inter]
    tauto

def diskD1 : DiskIdentity := { vendor := "v", model := "m", serial := "s1" }

def diskD2 : DiskIdentity := { vendor := "v", model := "m", serial := "s2" }

def sampleDisksBefore : SledId → Option BlueprintOrCollectionDisksConfig :=
  fun s => if s = 0 then some { generation := some 1, disks := {diskD1} }
           else none

def sampleDisksAfter : SledId → Option BlueprintPhysicalDisksConfig :=
  fun s => if s = 0 then some { generation := 2, disks := {diskD1, diskD2} }
           else none

/-- Witness for C5 at a concrete pair of disk maps. -/
theorem C5_disk_set_reconciliation_witness :
    diskDetailsSet
        ((BpDiffPhysicalDisks.new sampleDisksBefore sampleDisksAfter).added 0)
      = ({diskD1, diskD2} : Finset DiskIdentity) \ {diskD1}
    ∧ diskDetailsSet
        ((BpDiffPhysicalDisks.new sampleDisksBefore sampleDisksAfter).removed 0)
      = ({diskD1} : Finset DiskIdentity) \ {diskD1, diskD2}
    ∧ diskDetailsSet
        ((BpDiffPhysicalDisks.new sampleDisksBefore sampleDisksAfter).unchanged 0)
      = ({diskD1} : Finset DiskIdentity) ∩ {diskD1, diskD2}
    ∧ List.Pairwise (fun x y => Disjoint x y)
        [({diskD1, diskD2} : Finset DiskIdentity) \ {diskD1},
         ({diskD1} : Finset DiskIdentity) \ {diskD1, diskD2},
         ({diskD1} : Finset DiskIdentity) ∩ {diskD1, diskD2}]
    ∧ (({diskD1, diskD2} : Finset DiskIdentity) \ {diskD1})
        ∪ (({diskD1} : Finset DiskIdentity) \ {diskD1, diskD2})
        ∪ (({diskD1} : Finset DiskIdentity) ∩ {diskD1, diskD2})
      = ({diskD1} : Finset DiskIdentity) ∪ {diskD1, diskD2} :=
  C5_disk_set_reconciliation sampleDisksBefore sampleDisksAfter 0
    { generation := some 1, disks := {diskD1} }
    { generation := 2, disks := {diskD1, diskD2} } rfl rfl

/-! ### Pointwise characterization of the aggregator -/

section Aggregator

variable (bst : SledId → Option SledState)
variable (bz : SledId → Option BlueprintZonesConfig)
variable (bd : SledId → Option BlueprintOrCollectionDisksConfig)
variable (bds : SledId → Option BlueprintOrCollectionDatasetsConfig)
variable (ast : SledId → Option SledState)
variable (az : SledId → Option BlueprintZonesConfig)
variable (ad : SledId → Option BlueprintPhysicalDisksConfig)
variable (ads : SledId → Option BlueprintDatasetsConfig)

/-- The decommissioning patch never adds a sled to the after-side host
set: it only inserts a state for sleds already holding after zones or
disks. -/
theorem afterPresent_patch (s : SledId) :
    afterPresent (patchAfterState bst ast az ad) az ad ads s
      = afterPresent ast az ad ads s := by
  unfold afterPresent patchAfterState
  split
  next h => rcases h.2.2 with h3 | h3 <;> simp [h3]
  next => rfl

theorem sleds_added_apply (s : SledId) :
    (BlueprintDiff.new bst bz bd bds ast az ad ads).sleds_added s
      = (afterPresent ast az ad ads s && !beforePresent bst bz bd bds s) := by
  rw [show (BlueprintDiff.new bst bz bd bds ast az ad ads).sleds_added s
      = (afterPresent (patchAfterState bst ast az ad) az ad ads s
          && !beforePresent bst bz bd bds s) from rfl,
    afterPresent_patch]

theorem sleds_removed_apply (s : SledId) :
    (BlueprintDiff.new bst bz bd bds ast az ad ads).sleds_removed s
      = (beforePresent bst bz bd bds s && !afterPresent ast az ad ads s) := by
  rw [show (BlueprintDiff.new bst bz bd bds ast az ad ads).sleds_removed s
      = (beforePresent bst bz bd bds s
          && !afterPresent (patchAfterState bst ast az ad) az ad ads s) from rfl,
    afterPresent_patch]

theorem sleds_modified_apply (s : SledId) :
    (BlueprintDiff.new bst bz bd bds ast az ad ads).sleds_modified s
      = (((beforePresent bst bz bd bds s || afterPresent ast az ad ads s)
          && !(afterPresent ast az ad ads s && !beforePresent bst bz bd bds s)
          && !(beforePresent bst bz bd bds s && !afterPresent ast az ad ads s))
        && modifiedCondition bst (patchAfterState bst ast az ad)
            (BpDiffZones.new bz az) (BpDiffPhysicalDisks.new bd ad)
            (BpDiffDatasets.new bds ads) s) := by
  rw [show (BlueprintDiff.new bst bz bd bds ast az ad ads).sleds_modified s
      = (((beforePresent bst bz bd bds s
            || afterPresent (patchAfterState bst ast az ad) az ad ads s)
          && !(afterPresent (patchAfterState bst ast az ad) az ad ads s
                && !beforePresent bst bz bd bds s)
          && !(beforePresent bst bz bd bds s
                && !afterPresent (patchAfterState bst ast az ad) az ad ads s))
        && modifiedCondition bst (patchAfterState bst ast az ad)
            (BpDiffZones.new bz az) (BpDiffPhysicalDisks.new bd ad)
            (BpDiffDatasets.new bds ads) s) from rfl,
    afterPresent_patch]

theorem sleds_unchanged_apply (s : SledId) :
    (BlueprintDiff.new bst bz bd bds ast az ad ads).sleds_unchanged s
      = (((beforePresent bst bz bd bds s || afterPresent ast az ad ads s)
          && !(afterPresent ast az ad ads s && !beforePresent bst bz bd bds s)
          && !(beforePresent bst bz bd bds s && !afterPresent ast az ad ads s))
        && !((BlueprintDiff.new bst bz bd bds ast az ad ads).sleds_modified s)) := by
  rw [show (BlueprintDiff.new bst bz bd bds ast az ad ads).sleds_unchanged s
      = (((beforePresent bst bz bd bds s
            || afterPresent (patchAfterState bst ast az ad) az ad ads s)
          && !(afterPresent (patchAfterState bst ast az ad) az ad ads s
                && !beforePresent bst bz bd bds s)
          && !(beforePresent bst bz bd bds s
                && !afterPresent (patchAfterState bst ast az ad) az ad ads s))
        && !((BlueprintDiff.new bst bz bd bds ast az ad ads).sleds_modified s))
      from rfl,
    afterPresent_patch]

end Aggregator

/-! ### Claims C2, C6, C7 -/

section SledClaims

variable (bst : SledId → Option SledState)
variable (bz : SledId → Option BlueprintZonesConfig)
variable (bd : SledId → Option BlueprintOrCollectionDisksConfig)
variable (bds : SledId → Option BlueprintOrCollectionDatasetsConfig)
variable (ast : SledId → Option SledState)
variable (az : SledId → Option BlueprintZonesConfig)
variable (ad : SledId → Option BlueprintPhysicalDisksConfig)
variable (ads : SledId → Option BlueprintDatasetsConfig)

/-- C2: the four host-classification sets are pairwise disjoint and
their union is exactly the set of hosts appearing in either input
snapshot (in any state, zone, disk, or dataset map). -/
theorem C2_sled_classification_partition (s : SledId) :
    ((BlueprintDiff.new bst bz bd bds ast az ad ads).sleds_added s
      || (BlueprintDiff.new bst bz bd bds ast az ad ads).sleds_removed s
      || (BlueprintDiff.new bst bz bd bds ast az ad ads).sleds_modified s
      || (BlueprintDiff.new bst bz bd bds ast az ad ads).sleds_unchanged s)
      = allSledsInput bst bz bd bds ast az ad ads s
    ∧ ((BlueprintDiff.new bst bz bd bds ast az ad ads).sleds_added s
        && (BlueprintDiff.new bst bz bd bds ast az ad ads).sleds_removed s)
      = false
    ∧ ((BlueprintDiff.new bst bz bd bds ast az ad ads).sleds_added s
        && (BlueprintDiff.new bst bz bd bds ast az ad ads).sleds_modified s)
      = false
    ∧ ((BlueprintDiff.new bst bz bd bds ast az ad ads).sleds_added s
        && (BlueprintDiff.new bst bz bd bds ast az ad ads).sleds_unchanged s)
      = false
    ∧ ((BlueprintDiff.new bst bz bd bds ast az ad ads).sleds_removed s
        && (BlueprintDiff.new bst bz bd bds ast az ad ads).sleds_modified s)
      = false
    ∧ ((BlueprintDiff.new bst bz bd bds ast az ad ads).sleds_removed s
        && (BlueprintDiff.new bst bz bd bds ast az ad ads).sleds_unchanged s)
      = false
    ∧ ((BlueprintDiff.new bst bz bd bds ast az ad ads).sleds_modified s
        && (BlueprintDiff.new bst bz bd bds ast az ad ads).sleds_unchanged s)
      = false := by
  rw [sleds_added_apply, sleds_removed_apply, sleds_unchanged_apply,
    sleds_modified_apply]
  cases hB : beforePresent bst bz bd bds s <;>
    cases hA : afterPresent ast az ad ads s <;>
      cases hC : modifiedCondition bst (patchAfterState bst ast az ad)
          (BpDiffZones.new bz az) (BpDiffPhysicalDisks.new bd ad)
          (BpDiffDatasets.new bds ads) s <;>
    simp [allSledsInput, hB, hA, hC]

/-- C6: a host of the diff that is neither added nor removed is modified
exactly when its sled state differs between the stored before and after
state maps or some non-unchanged bucket of some category has an entry for
it; otherwise it is unchanged. -/
theorem C6_modified_characterization (s : SledId)
    (hall : allSledsInput bst bz bd bds ast az ad ads s = true)
    (hadd : (BlueprintDiff.new bst bz bd bds ast az ad ads).sleds_added s
      = false)
    (hrem : (BlueprintDiff.new bst bz bd bds ast az ad ads).sleds_removed s
      = false) :
    ((BlueprintDiff.new bst bz bd bds ast az ad ads).sleds_modified s = true ↔
      ((BlueprintDiff.new bst bz bd bds ast az ad ads).before_state s
          ≠ (BlueprintDiff.new bst bz bd bds ast az ad ads).after_state s
        ∨ (((BlueprintDiff.new bst bz bd bds ast az ad ads).physical_disks.added
              s).isSome = true)
        ∨ (((BlueprintDiff.new bst bz bd bds ast az ad ads).physical_disks.removed
              s).isSome = true)
        ∨ (((BlueprintDiff.new bst bz bd bds ast az ad ads).datasets.added
              s).isSome = true)
        ∨ (((BlueprintDiff.new bst bz bd bds ast az ad ads).datasets.modified
              s).isSome = true)
        ∨ (((BlueprintDiff.new bst bz bd bds ast az ad ads).datasets.removed
              s).isSome = true)
        ∨ (((BlueprintDiff.new bst bz bd bds ast az ad ads).zones.added
              s).isSome = true)
        ∨ (((BlueprintDiff.new bst bz bd bds ast az ad ads).zones.removed
              s).isSome = true)
        ∨ (((BlueprintDiff.new bst bz bd bds ast az ad ads).zones.modified
              s).isSome = true)
        ∨ (((BlueprintDiff.new bst bz bd bds ast az ad ads).zones.errors
              s).isSome = true)))
    ∧ ((BlueprintDiff.new bst bz bd bds ast az ad ads).sleds_unchanged s = true ↔
      ¬((BlueprintDiff.new bst bz bd bds ast az ad ads).before_state s
          ≠ (BlueprintDiff.new bst bz bd bds ast az ad ads).after_state s
        ∨ (((BlueprintDiff.new bst bz bd bds ast az ad ads).physical_disks.added
              s).isSome = true)
        ∨ (((BlueprintDiff.new bst bz bd bds ast az ad ads).physical_disks.removed
              s).isSome = true)
        ∨ (((BlueprintDiff.new bst bz bd bds ast az ad ads).datasets.added
              s).isSome = true)
        ∨ (((BlueprintDiff.new bst bz bd bds ast az ad ads).datasets.modified
              s).isSome = true)
        ∨ (((BlueprintDiff.new bst bz bd bds ast az ad ads).datasets.removed
              s).isSome = true)
        ∨ (((BlueprintDiff.new bst bz bd bds ast az ad ads).zones.added
              s).isSome = true)
        ∨ (((BlueprintDiff.new bst bz bd bds ast az ad ads).zones.removed
              s).isSome = true)
        ∨ (((BlueprintDiff.new bst bz bd bds ast az ad ads).zones.modified
              s).isSome = true)
        ∨ (((BlueprintDiff.new bst bz bd bds ast az ad ads).zones.errors
              s).isSome = true))) := by
  rw [sleds_added_apply] at hadd
  rw [sleds_removed_apply] at hrem
  have hball : (beforePresent bst bz bd bds s
      || afterPresent ast az ad ads s) = true := hall
  have hbefore : (BlueprintDiff.new bst bz bd bds ast az ad ads).before_state
      = bst := rfl
  have hafter : (BlueprintDiff.new bst bz bd bds ast az ad ads).after_state
      = patchAfterState bst ast az ad := rfl
  have hzones : (BlueprintDiff.new bst bz bd bds ast az ad ads).zones
      = BpDiffZones.new bz az := rfl
  have hdisks : (BlueprintDiff.new bst bz bd bds ast az ad ads).physical_disks
      = BpDiffPhysicalDisks.new bd ad := rfl
  have hdatasets : (BlueprintDiff.new bst bz bd bds ast az ad ads).datasets
      = BpDiffDatasets.new bds ads := rfl
  rw [sleds_unchanged_apply, sleds_modified_apply, hbefore, hafter, hzones,
    hdisks, hdatasets, hball, hadd, hrem]
  simp only [Bool.not_false, Bool.and_true, Bool.true_and]
  constructor
  · simp only [modifiedCondition, Bool.or_eq_true, decide_eq_true_iff]
    tauto
  · simp only [modifiedCondition, Bool.not_eq_true', Bool.or_eq_false_iff,
      decide_eq_false_iff_not, not_not, not_or, Bool.not_eq_true,
      Option.not_isSome_iff_eq_none, ne_eq]
    tauto
end SledClaims

/-! ### Claim C7 and witnesses for C2/C6/C7 -/

/-- C7: a host with before-state Decommissioned, no after-state entry,
but a residual after-side zones or disks entry, gets an after state of
Decommissioned synthesized before classification and is neither added nor
removed. -/
theorem C7_decommission_patch
    (bst : SledId → Option SledState)
    (bz : SledId → Option BlueprintZonesConfig)
    (bd : SledId → Option BlueprintOrCollectionDisksConfig)
    (bds : SledId → Option BlueprintOrCollectionDatasetsConfig)
    (ast : SledId → Option SledState)
    (az : SledId → Option BlueprintZonesConfig)
    (ad : SledId → Option BlueprintPhysicalDisksConfig)
    (ads : SledId → Option BlueprintDatasetsConfig)
    (s : SledId)
    (h1 : bst s = some SledState.decommissioned)
    (h2 : ast s = none)
    (h3 : (az s).isSome = true ∨ (ad s).isSome = true) :
    (BlueprintDiff.new bst bz bd bds ast az ad ads).after_state s
      = some SledState.decommissioned
    ∧ (BlueprintDiff.new bst bz bd bds ast az ad ads).sleds_added s = false
    ∧ (BlueprintDiff.new bst bz bd bds ast az ad ads).sleds_removed s
      = false := by
  have hafter : (BlueprintDiff.new bst bz bd bds ast az ad ads).after_state
      = patchAfterState bst ast az ad := rfl
  have hpatch : patchAfterState bst ast az ad s
      = some SledState.decommissioned := by
    unfold patchAfterState
    rw [if_pos ⟨h1, h2, h3⟩]
  refine ⟨by rw [hafter, hpatch], ?_, ?_⟩
  · rw [sleds_added_apply]
    have hB : beforePresent bst bz bd bds s = true := by
      simp [beforePresent, h1]
    simp [hB]
  · rw [sleds_removed_apply]
    have hA : afterPresent ast az ad ads s = true := by
      rcases h3 with h | h <;> simp [afterPresent, h]
    simp [hA]

def sledDecommBeforeState : SledId → Option SledState :=
  fun s => if s = 0 then some SledState.decommissioned else none

def sledDecommAfterZones : SledId → Option BlueprintZonesConfig :=
  fun s => if s = 0 then some { generation := 1, zones := [zoneA1] } else none

/-- Witness for C7 at a concrete decommissioned sled. -/
theorem C7_decommission_patch_witness :
    (BlueprintDiff.new sledDecommBeforeState (fun _ => none) (fun _ => none)
        (fun _ => none) (fun _ => none) sledDecommAfterZones (fun _ => none)
        (fun _ => none)).after_state 0 = some SledState.decommissioned
    ∧ (BlueprintDiff.new sledDecommBeforeState (fun _ => none) (fun _ => none)
        (fun _ => none) (fun _ => none) sledDecommAfterZones (fun _ => none)
        (fun _ => none)).sleds_added 0 = false
    ∧ (BlueprintDiff.new sledDecommBeforeState (fun _ => none) (fun _ => none)
        (fun _ => none) (fun _ => none) sledDecommAfterZones (fun _ => none)
        (fun _ => none)).sleds_removed 0 = false :=
  C7_decommission_patch sledDecommBeforeState (fun _ => none) (fun _ => none)
    (fun _ => none) (fun _ => none) sledDecommAfterZones (fun _ => none)
    (fun _ => none) 0 rfl rfl (Or.inl rfl)

def sledActiveState : SledId → Option SledState :=
  fun s => if s = 0 then some SledState.active else none

/-- Witness for C6: a host present in both snapshots with nothing changed
is classified unchanged. -/
theorem C6_modified_characterization_witness :
    (BlueprintDiff.new sledActiveState (fun _ => none) (fun _ => none)
        (fun _ => none) sledActiveState (fun _ => none) (fun _ => none)
        (fun _ => none)).sleds_unchanged 0 = true := by
  have h := C6_modified_characterization sledActiveState (fun _ => none)
    (fun _ => none) (fun _ => none) sledActiveState (fun _ => none)
    (fun _ => none) (fun _ => none) 0 (by decide) (by decide) (by decide)
  exact h.2.mpr (by decide)

/-! ### Claims C9 and C10 -/

theorem pairwise_eq_of_all_eq {α : Type} {l : List α} (c : α)
    (h : ∀ x ∈ l, x = c) : l.Pairwise (fun x y => x = y) := by
  induction l with
  | nil => exact List.Pairwise.nil
  | cons a t ih =>
    refine List.Pairwise.cons ?_ (ih fun x hx => h x (List.mem_cons_of_mem _ hx))
    intro y hy
    rw [h a (List.mem_cons_self _ _), h y (List.mem_cons_of_mem _ hy)]

/-- C9: for every host and category, all bucket entries that exist for
the host record the same (generation-before, generation-after) pair. -/
theorem C9_generation_consistency
    (bz az : SledId → Option BlueprintZonesConfig)
    (bd : SledId → Option BlueprintOrCollectionDisksConfig)
    (ad : SledId → Option BlueprintPhysicalDisksConfig)
    (bds : SledId → Option BlueprintOrCollectionDatasetsConfig)
    (ads : SledId → Option BlueprintDatasetsConfig)
    (s : SledId) :
    List.Pairwise (fun x y => x = y) (zonesGenPairs (BpDiffZones.new bz az) s)
    ∧ List.Pairwise (fun x y => x = y)
        (disksGenPairs (BpDiffPhysicalDisks.new bd ad) s)
    ∧ List.Pairwise (fun x y => x = y)
        (datasetsGenPairs (BpDiffDatasets.new bds ads) s) := by
  refine ⟨?_, ?_, ?_⟩
  · rcases hbz : bz s with _ | bzc <;> rcases haz : az s with _ | azc <;>
      simp only [zonesGenPairs, BpDiffZones.new, hbz, haz] <;>
      (try split_ifs) <;> simp
  · rcases hbd : bd s with _ | bdc <;> rcases had : ad s with _ | adc <;>
      simp only [disksGenPairs, BpDiffPhysicalDisks.new, hbd, had] <;>
      (try split_ifs) <;> simp
  · rcases hbds : bds s with _ | bdsc <;> rcases hads : ads s with _ | adsc <;>
      simp only [datasetsGenPairs, BpDiffDatasets.new, hbds, hads] <;>
      (try split_ifs) <;> simp

theorem sortZones_eq_nil_iff (l : List BlueprintZoneConfig) :
    sortZones l = [] ↔ l = [] := by
  constructor
  · intro h
    have hp : (sortZones l).Perm l := sortBy_perm zoneLe l
    rw [h] at hp
    exact hp.symm.eq_nil
  · intro h
    subst h
    rfl

theorem sortModifiedZones_eq_nil_iff (l : List ModifiedZone) :
    sortModifiedZones l = [] ↔ l = [] := by
  constructor
  · intro h
    have hp : (sortModifiedZones l).Perm l := sortBy_perm modifiedZoneLe l
    rw [h] at hp
    exact hp.symm.eq_nil
  · intro h
    subst h
    rfl

/-- C10: a zone-diff bucket entry present for a host always carries a
non-empty zone (or error) list: empty buckets are absent entries. -/
theorem C10_no_empty_zone_entries
    (bz az : SledId → Option BlueprintZonesConfig) (s : SledId) :
    (∀ d, (BpDiffZones.new bz az).added s = some d → d.zones ≠ [])
    ∧ (∀ d, (BpDiffZones.new bz az).removed s = some d → d.zones ≠ [])
    ∧ (∀ d, (BpDiffZones.new bz az).unchanged s = some d → d.zones ≠ [])
    ∧ (∀ m, (BpDiffZones.new bz az).modified s = some m → m.zones ≠ [])
    ∧ (∀ e, (BpDiffZones.new bz az).errors s = some e → e.errors ≠ []) := by
  refine ⟨?_, ?_, ?_, ?_, ?_⟩ <;>
    rcases hbz : bz s with _ | bzc <;> rcases haz : az s with _ | azc <;>
      simp only [BpDiffZones.new, hbz, haz] <;> intro d hd <;>
      first
      | exact Option.noConfusion hd
      | (split at hd
         next => exact Option.noConfusion hd
         next hcond =>
           cases hd
           simp only [ne_eq, sortZones_eq_nil_iff, sortModifiedZones_eq_nil_iff]
           simpa [List.isEmpty_iff] using hcond)

/-- Witness for C10: a concrete added bucket entry and its non-empty
zone list. -/
theorem C10_no_empty_zone_entries_witness :
    (BpDiffZones.new (fun _ => none) sledDecommAfterZones).added 0
      = some { generation_before := none, generation_after := some 1,
               zones := [zoneA1] }
    ∧ ({ generation_before := none, generation_after := some 1,
         zones := [zoneA1] } : BpDiffZoneDetails).zones ≠ [] := by
  refine ⟨by decide, ?_⟩
  exact (C10_no_empty_zone_entries (fun _ => none) sledDecommAfterZones 0).1 _
    (by decide)

/-! ### Claim C4 -/

/-- The before-flavored view of a blueprint disk config (generation
wrapped in `some`). -/
def BlueprintPhysicalDisksConfig.forDiff (c : BlueprintPhysicalDisksConfig) :
    BlueprintOrCollectionDisksConfig :=
  { generation := some c.generation, disks := c.disks }

/-- The before-flavored view of a blueprint dataset config (generation
wrapped in `some`). -/
def BlueprintDatasetsConfig.forDiff (c : BlueprintDatasetsConfig) :
    BlueprintOrCollectionDatasetsConfig :=
  { generation := some c.generation, datasets := c.datasets }

/-- Diffing a snapshot against an identical copy of itself. -/
def identityDiff (ast : SledId → Option SledState)
    (az : SledId → Option BlueprintZonesConfig)
    (ad : SledId → Option BlueprintPhysicalDisksConfig)
    (ads : SledId → Option BlueprintDatasetsConfig) : BlueprintDiff :=
  BlueprintDiff.new ast az
    (fun t => (ad t).map BlueprintPhysicalDisksConfig.forDiff)
    (fun t => (ads t).map BlueprintDatasetsConfig.forDiff)
    ast az ad ads

theorem patchAfterState_self (ast : SledId → Option SledState)
    (az : SledId → Option BlueprintZonesConfig)
    (ad : SledId → Option BlueprintPhysicalDisksConfig) (s : SledId) :
    patchAfterState ast ast az ad s = ast s := by
  unfold patchAfterState
  split
  next h =>
    have h1 := h.1
    rw [h.2.1] at h1
    cases h1
  next => rfl

/-- C4: diffing a snapshot against an identical copy of itself yields
empty added / removed / modified / errored buckets for every host in
every category and classifies every mentioned host as unchanged. -/
theorem C4_identity_diff (ast : SledId → Option SledState)
    (az : SledId → Option BlueprintZonesConfig)
    (ad : SledId → Option BlueprintPhysicalDisksConfig)
    (ads : SledId → Option BlueprintDatasetsConfig) (s : SledId) :
    (identityDiff ast az ad ads).zones.added s = none
    ∧ (identityDiff ast az ad ads).zones.removed s = none
    ∧ (identityDiff ast az ad ads).zones.modified s = none
    ∧ (identityDiff ast az ad ads).zones.errors s = none
    ∧ (identityDiff ast az ad ads).physical_disks.added s = none
    ∧ (identityDiff ast az ad ads).physical_disks.removed s = none
    ∧ (identityDiff ast az ad ads).datasets.added s = none
    ∧ (identityDiff ast az ad ads).datasets.removed s = none
    ∧ (identityDiff ast az ad ads).datasets.modified s = none
    ∧ (identityDiff ast az ad ads).sleds_added s = false
    ∧ (identityDiff ast az ad ads).sleds_removed s = false
    ∧ (identityDiff ast az ad ads).sleds_modified s = false
    ∧ (identityDiff ast az ad ads).sleds_unchanged s
        = allSledsInput ast az
            (fun t => (ad t).map BlueprintPhysicalDisksConfig.forDiff)
            (fun t => (ads t).map BlueprintDatasetsConfig.forDiff)
            ast az ad ads s := by
  have hzones : (identityDiff ast az ad ads).zones = BpDiffZones.new az az :=
    rfl
  have hdisks : (identityDiff ast az ad ads).physical_disks
      = BpDiffPhysicalDisks.new
          (fun t => (ad t).map BlueprintPhysicalDisksConfig.forDiff) ad := rfl
  have hdatasets : (identityDiff ast az ad ads).datasets
      = BpDiffDatasets.new
          (fun t => (ads t).map BlueprintDatasetsConfig.forDiff) ads := rfl
  have hza : (BpDiffZones.new az az).added s = none := by
    rcases haz : az s with _ | c
    · simp [BpDiffZones.new, haz]
    · simp [BpDiffZones.new, haz, zoneDiffLoop_self]
  have hzr : (BpDiffZones.new az az).removed s = none := by
    rcases haz : az s with _ | c
    · simp [BpDiffZones.new, haz]
    · simp [BpDiffZones.new, haz, zoneDiffLoop_self]
  have hzm : (BpDiffZones.new az az).modified s = none := by
    rcases haz : az s with _ | c
    · simp [BpDiffZones.new, haz]
    · simp [BpDiffZones.new, haz, zoneDiffLoop_self]
  have hze : (BpDiffZones.new az az).errors s = none := by
    rcases haz : az s with _ | c
    · simp [BpDiffZones.new, haz]
    · simp [BpDiffZones.new, haz, zoneDiffLoop_self]
  have hda : (BpDiffPhysicalDisks.new
      (fun t => (ad t).map BlueprintPhysicalDisksConfig.forDiff) ad).added s
      = none := by
    rcases had : ad s with _ | c
    · simp [BpDiffPhysicalDisks.new, had]
    · simp [BpDiffPhysicalDisks.new, had, BlueprintPhysicalDisksConfig.forDiff]
  have hdr : (BpDiffPhysicalDisks.new
      (fun t => (ad t).map BlueprintPhysicalDisksConfig.forDiff) ad).removed s
      = none := by
    rcases had : ad s with _ | c
    · simp [BpDiffPhysicalDisks.new, had]
    · simp [BpDiffPhysicalDisks.new, had, BlueprintPhysicalDisksConfig.forDiff]
  have hdsa : (BpDiffDatasets.new
      (fun t => (ads t).map BlueprintDatasetsConfig.forDiff) ads).added s
      = none := by
    rcases hads : ads s with _ | c
    · simp [BpDiffDatasets.new, hads]
    · simp [BpDiffDatasets.new, hads, BlueprintDatasetsConfig.forDiff,
        datasetDiffLoop_self]
  have hdsr : (BpDiffDatasets.new
      (fun t => (ads t).map BlueprintDatasetsConfig.forDiff) ads).removed s
      = none := by
    rcases hads : ads s with _ | c
    · simp [BpDiffDatasets.new, hads]
    · simp [BpDiffDatasets.new, hads, BlueprintDatasetsConfig.forDiff,
        datasetDiffLoop_self]
  have hdsm : (BpDiffDatasets.new
      (fun t => (ads t).map BlueprintDatasetsConfig.forDiff) ads).modified s
      = none := by
    rcases hads : ads s with _ | c
    · simp [BpDiffDatasets.new, hads]
    · simp [BpDiffDatasets.new, hads, BlueprintDatasetsConfig.forDiff,
        datasetDiffLoop_self]
  have hBA : beforePresent ast az
      (fun t => (ad t).map BlueprintPhysicalDisksConfig.forDiff)
      (fun t => (ads t).map BlueprintDatasetsConfig.forDiff) s
      = afterPresent ast az ad ads s := by
    simp [beforePresent, afterPresent]
  have hcond : modifiedCondition ast (patchAfterState ast ast az ad)
      (BpDiffZones.new az az)
      (BpDiffPhysicalDisks.new
        (fun t => (ad t).map BlueprintPhysicalDisksConfig.forDiff) ad)
      (BpDiffDatasets.new
        (fun t => (ads t).map BlueprintDatasetsConfig.forDiff) ads) s
      = false := by
    unfold modifiedCondition
    rw [patchAfterState_self]
    simp [hza, hzr, hzm, hze, hda, hdr, hdsa, hdsr, hdsm]
  refine ⟨hzones ▸ hza, hzones ▸ hzr, hzones ▸ hzm, hzones ▸ hze,
    hdisks ▸ hda, hdisks ▸ hdr, hdatasets ▸ hdsa, hdatasets ▸ hdsr,
    hdatasets ▸ hdsm, ?_, ?_, ?_, ?_⟩
  · rw [identityDiff, sleds_added_apply, hBA]
    cases afterPresent ast az ad ads s <;> simp
  · rw [identityDiff, sleds_removed_apply, hBA]
    cases afterPresent ast az ad ads s <;> simp
  · rw [identityDiff, sleds_modified_apply, hcond]
    simp
  · rw [identityDiff, sleds_unchanged_apply, sleds_modified_apply, hcond, hBA]
    simp only [allSledsInput, hBA]
    cases afterPresent ast az ad ads s <;> simp

/-! ### Claim C1: partition of ids per host and category -/

def beforeDiskSet : Option BlueprintOrCollectionDisksConfig → Finset DiskIdentity
  | none => ∅
  | some c => c.disks

def afterDiskSet : Option BlueprintPhysicalDisksConfig → Finset DiskIdentity
  | none => ∅
  | some c => c.disks

theorem sortZones_ids_toFinset (l : List BlueprintZoneConfig) :
    (zoneIds (sortZones l)).toFinset = (zoneIds l).toFinset :=
  List.toFinset_eq_of_perm _ _ ((sortBy_perm zoneLe l).map _)

theorem sortModifiedZones_ids_toFinset (l : List ModifiedZone) :
    (modifiedIds (sortModifiedZones l)).toFinset
      = (modifiedIds l).toFinset :=
  List.toFinset_eq_of_perm _ _ ((sortBy_perm modifiedZoneLe l).map _)

theorem sortZonesById_ids_perm (l : List BlueprintZoneConfig) :
    (zoneIds (sortZonesById l)).Perm (zoneIds l) :=
  (sortBy_perm zoneIdLe l).map _

theorem sortDatasetsById_ids_perm (l : List BlueprintDatasetConfigForDiff) :
    (datasetIds (sortDatasetsById l)).Perm (datasetIds l) :=
  (sortBy_perm datasetIdLe l).map _

theorem multiset_nodup_four {α : Type} [DecidableEq α]
    {s1 s2 s3 s4 : Multiset α} (h : (s1 + s2 + s3 + s4).Nodup) :
    Disjoint s1.toFinset s2.toFinset ∧ Disjoint s1.toFinset s3.toFinset
    ∧ Disjoint s1.toFinset s4.toFinset ∧ Disjoint s2.toFinset s3.toFinset
    ∧ Disjoint s2.toFinset s4.toFinset ∧ Disjoint s3.toFinset s4.toFinset := by
  rw [Multiset.nodup_add] at h
  obtain ⟨h123, _, hd4⟩ := h
  rw [Multiset.nodup_add] at h123
  obtain ⟨h12, _, hd3⟩ := h123
  rw [Multiset.nodup_add] at h12
  obtain ⟨_, _, hd2⟩ := h12
  rw [Multiset.disjoint_add_left] at hd3 hd4
  rw [Multiset.disjoint_add_left] at hd4
  exact ⟨Multiset.disjoint_toFinset.mpr hd2,
    Multiset.disjoint_toFinset.mpr hd3.1,
    Multiset.disjoint_toFinset.mpr hd4.1.1,
    Multiset.disjoint_toFinset.mpr hd3.2,
    Multiset.disjoint_toFinset.mpr hd4.1.2,
    Multiset.disjoint_toFinset.mpr hd4.2⟩

theorem multiset_nodup_three {α : Type} [DecidableEq α]
    {s1 s2 s3 : Multiset α} (h : (s1 + s2 + s3).Nodup) :
    Disjoint s1.toFinset s2.toFinset ∧ Disjoint s1.toFinset s3.toFinset
    ∧ Disjoint s2.toFinset s3.toFinset := by
  rw [Multiset.nodup_add] at h
  obtain ⟨h12, _, hd3⟩ := h
  rw [Multiset.nodup_add] at h12
  obtain ⟨_, _, hd2⟩ := h12
  rw [Multiset.disjoint_add_left] at hd3
  exact ⟨Multiset.disjoint_toFinset.mpr hd2,
    Multiset.disjoint_toFinset.mpr hd3.1,
    Multiset.disjoint_toFinset.mpr hd3.2⟩

/-- Per-host partition law for the disk diff. -/
theorem disksPartitionLemma
    (bd : SledId → Option BlueprintOrCollectionDisksConfig)
    (ad : SledId → Option BlueprintPhysicalDisksConfig) (s : SledId) :
    List.Pairwise (fun x y => Disjoint x y)
      [diskDetailsSet ((BpDiffPhysicalDisks.new bd ad).added s),
       diskDetailsSet ((BpDiffPhysicalDisks.new bd ad).removed s),
       diskDetailsSet ((BpDiffPhysicalDisks.new bd ad).unchanged s)]
    ∧ diskDetailsSet ((BpDiffPhysicalDisks.new bd ad).added s)
        ∪ diskDetailsSet ((BpDiffPhysicalDisks.new bd ad).removed s)
        ∪ diskDetailsSet ((BpDiffPhysicalDisks.new bd ad).unchanged s)
      = beforeDiskSet (bd s) ∪ afterDiskSet (ad s) := by
  rcases hbd : bd s with _ | cb <;> rcases had : ad s with _ | ca
  · simp [BpDiffPhysicalDisks.new, hbd, had, diskDetailsSet, beforeDiskSet,
      afterDiskSet]
  · have hA : diskDetailsSet ((BpDiffPhysicalDisks.new bd ad).added s)
        = ca.disks := by
      simp only [BpDiffPhysicalDisks.new, hbd, had]
      split
      next hemp => simp [diskDetailsSet, hemp]
      next => simp [diskDetailsSet]
    have hR : diskDetailsSet ((BpDiffPhysicalDisks.new bd ad).removed s)
        = ∅ := by
      simp [BpDiffPhysicalDisks.new, hbd, had, diskDetailsSet]
    have hU : diskDetailsSet ((BpDiffPhysicalDisks.new bd ad).unchanged s)
        = ∅ := by
      simp [BpDiffPhysicalDisks.new, hbd, had, diskDetailsSet]
    rw [hA, hR, hU]
    simp [beforeDiskSet, afterDiskSet, hbd, had]
  · have hA : diskDetailsSet ((BpDiffPhysicalDisks.new bd ad).added s)
        = ∅ := by
      simp [BpDiffPhysicalDisks.new, hbd, had, diskDetailsSet]
    have hR : diskDetailsSet ((BpDiffPhysicalDisks.new bd ad).removed s)
        = cb.disks := by
      simp [BpDiffPhysicalDisks.new, hbd, had, diskDetailsSet]
    have hU : diskDetailsSet ((BpDiffPhysicalDisks.new bd ad).unchanged s)
        = ∅ := by
      simp [BpDiffPhysicalDisks.new, hbd, had, diskDetailsSet]
    rw [hA, hR, hU]
    simp [beforeDiskSet, afterDiskSet, hbd, had]
  · have hA : diskDetailsSet ((BpDiffPhysicalDisks.new bd ad).added s)
        = ca.disks \ cb.disks := by
      simp only [BpDiffPhysicalDisks.new, hbd, had]
      split
      next hemp => simp [diskDetailsSet, hemp]
      next => simp [diskDetailsSet]
    have hR : diskDetailsSet ((BpDiffPhysicalDisks.new bd ad).removed s)
        = cb.disks \ ca.disks := by
      simp only [BpDiffPhysicalDisks.new, hbd, had]
      split
      next hemp => simp [diskDetailsSet, hemp]
      next => simp [diskDetailsSet]
    have hU : diskDetailsSet ((BpDiffPhysicalDisks.new bd ad).unchanged s)
        = ca.disks ∩ cb.disks := by
      simp only [BpDiffPhysicalDisks.new, hbd, had]
      split
      next hemp => simp [diskDetailsSet, hemp]
      next => simp [diskDetailsSet]
    rw [hA, hR, hU]
    constructor
    · simp only [List.pairwise_cons, List.mem_cons, List.not_mem_nil]
      refine ⟨?_, ?_, fun y hy => absurd hy id, List.Pairwise.nil⟩
      · intro y hy
        rcases hy with rfl | rfl | h
        · rw [Finset.disjoint_left]
          intro x hx hy
          simp only [Finset.mem_sdiff] at hx hy
          exact hx.2 hy.1
        · rw [Finset.disjoint_left]
          intro x hx hy
          simp only [Finset.mem_sdiff, Finset.mem_inter] at hx hy
          exact hx.2 hy.2
        · simp at h
      · intro y hy
        rcases hy with rfl | h
        · rw [Finset.disjoint_left]
          intro x hx hy
          simp only [Finset.mem_sdiff, Finset.mem_inter] at hx hy
          exact hx.2 hy.1
        · simp at h
    · simp only [beforeDiskSet, afterDiskSet]
      ext x
      simp only [Finset.mem_union, Finset.mem_sdiff, Finset.mem_inter]
      tauto

/-- Per-host partition law for the zone diff. -/
theorem zonesPartitionLemma (bz az : SledId → Option BlueprintZonesConfig)
    (s : SledId) (hbz : zonesConfigNodup (bz s))
    (haz : zonesConfigNodup (az s)) :
    List.Pairwise (fun x y => Disjoint x y)
      [zoneDetailsIds ((BpDiffZones.new bz az).added s),
       zoneDetailsIds ((BpDiffZones.new bz az).removed s),
       zoneDetailsIds ((BpDiffZones.new bz az).unchanged s),
       zonesModifiedBucketIds ((BpDiffZones.new bz az).modified s),
       zoneErrorsBucketIds ((BpDiffZones.new bz az).errors s)]
    ∧ zoneDetailsIds ((BpDiffZones.new bz az).added s)
        ∪ zoneDetailsIds ((BpDiffZones.new bz az).removed s)
        ∪ zoneDetailsIds ((BpDiffZones.new bz az).unchanged s)
        ∪ zonesModifiedBucketIds ((BpDiffZones.new bz az).modified s)
        ∪ zoneErrorsBucketIds ((BpDiffZones.new bz az).errors s)
      = configZoneIds (bz s) ∪ configZoneIds (az s) := by
  rcases hb : bz s with _ | cb <;> rcases ha : az s with _ | ca
  · simp [BpDiffZones.new, hb, ha, zoneDetailsIds, zonesModifiedBucketIds,
      zoneErrorsBucketIds, configZoneIds]
  · have hA : zoneDetailsIds ((BpDiffZones.new bz az).added s)
        = (zoneIds ca.zones).toFinset := by
      simp only [BpDiffZones.new, hb, ha]
      split
      next hc =>
        simp [zoneDetailsIds, List.isEmpty_iff.mp hc, zoneIds]
      next => simp [zoneDetailsIds]
    have hrest : zoneDetailsIds ((BpDiffZones.new bz az).removed s) = ∅
        ∧ zoneDetailsIds ((BpDiffZones.new bz az).unchanged s) = ∅
        ∧ zonesModifiedBucketIds ((BpDiffZones.new bz az).modified s) = ∅
        ∧ zoneErrorsBucketIds ((BpDiffZones.new bz az).errors s) = ∅ := by
      refine ⟨?_, ?_, ?_, ?_⟩ <;>
        simp [BpDiffZones.new, hb, ha, zoneDetailsIds,
          zonesModifiedBucketIds, zoneErrorsBucketIds]
    rw [hA, hrest.1, hrest.2.1, hrest.2.2.1, hrest.2.2.2]
    constructor
    · simp
    · simp [configZoneIds]
  · have hR : zoneDetailsIds ((BpDiffZones.new bz az).removed s)
        = (zoneIds cb.zones).toFinset := by
      simp only [BpDiffZones.new, hb, ha]
      split
      next hc =>
        simp [zoneDetailsIds, List.isEmpty_iff.mp hc, zoneIds]
      next => simp [zoneDetailsIds, sortZones_ids_toFinset]
    have hrest : zoneDetailsIds ((BpDiffZones.new bz az).added s) = ∅
        ∧ zoneDetailsIds ((BpDiffZones.new bz az).unchanged s) = ∅
        ∧ zonesModifiedBucketIds ((BpDiffZones.new bz az).modified s) = ∅
        ∧ zoneErrorsBucketIds ((BpDiffZones.new bz az).errors s) = ∅ := by
      refine ⟨?_, ?_, ?_, ?_⟩ <;>
        simp [BpDiffZones.new, hb, ha, zoneDetailsIds,
          zonesModifiedBucketIds, zoneErrorsBucketIds]
    rw [hR, hrest.1, hrest.2.1, hrest.2.2.1, hrest.2.2.2]
    constructor
    · simp
    · simp [configZoneIds]
  · rw [hb] at hbz
    rw [ha] at haz
    have hbn : (zoneIds (sortZonesById cb.zones)).Nodup :=
      ((sortZonesById_ids_perm cb.zones).nodup_iff).mpr hbz
    have han : (zoneIds (sortZonesById ca.zones)).Nodup :=
      ((sortZonesById_ids_perm ca.zones).nodup_iff).mpr haz
    have hpart := zoneDiffLoop_partition (sortZonesById cb.zones)
      (sortZonesById ca.zones)
    have hnodup : ((↑(zoneIds (zoneDiffLoop (sortZonesById cb.zones)
          (sortZonesById ca.zones)).unchanged)
        + ↑(zoneIds (zoneDiffLoop (sortZonesById cb.zones)
            (sortZonesById ca.zones)).removed)
        + ↑(modifiedIds (zoneDiffLoop (sortZonesById cb.zones)
            (sortZonesById ca.zones)).modified)
        + ↑(errorIds (zoneDiffLoop (sortZonesById cb.zones)
            (sortZonesById ca.zones)).errors)) : Multiset ZoneId).Nodup := by
      rw [hpart]
      exact Multiset.coe_nodup.mpr hbn
    have hdisj := multiset_nodup_four hnodup
    have hsumF : (zoneIds (zoneDiffLoop (sortZonesById cb.zones)
            (sortZonesById ca.zones)).unchanged).toFinset
        ∪ (zoneIds (zoneDiffLoop (sortZonesById cb.zones)
            (sortZonesById ca.zones)).removed).toFinset
        ∪ (modifiedIds (zoneDiffLoop (sortZonesById cb.zones)
            (sortZonesById ca.zones)).modified).toFinset
        ∪ (errorIds (zoneDiffLoop (sortZonesById cb.zones)
            (sortZonesById ca.zones)).errors).toFinset
        = (zoneIds (sortZonesById cb.zones)).toFinset := by
      have h2 := congrArg Multiset.toFinset hpart
      simpa [Multiset.toFinset_add] using h2
    have haddF := zoneDiffLoop_added (sortZonesById cb.zones)
      (sortZonesById ca.zones) hbn han
    have hA : zoneDetailsIds ((BpDiffZones.new bz az).added s)
        = (zoneIds (zoneDiffLoop (sortZonesById cb.zones)
            (sortZonesById ca.zones)).added).toFinset := by
      simp only [BpDiffZones.new, hb, ha]
      split
      next hc => simp [zoneDetailsIds, List.isEmpty_iff.mp hc, zoneIds]
      next => simp [zoneDetailsIds, sortZones_ids_toFinset]
    have hR : zoneDetailsIds ((BpDiffZones.new bz az).removed s)
        = (zoneIds (zoneDiffLoop (sortZonesById cb.zones)
            (sortZonesById ca.zones)).removed).toFinset := by
      simp only [BpDiffZones.new, hb, ha]
      split
      next hc => simp [zoneDetailsIds, List.isEmpty_iff.mp hc, zoneIds]
      next => simp [zoneDetailsIds, sortZones_ids_toFinset]
    have hU : zoneDetailsIds ((BpDiffZones.new bz az).unchanged s)
        = (zoneIds (zoneDiffLoop (sortZonesById cb.zones)
            (sortZonesById ca.zones)).unchanged).toFinset := by
      simp only [BpDiffZones.new, hb, ha]
      split
      next hc => simp [zoneDetailsIds, List.isEmpty_iff.mp hc, zoneIds]
      next => simp [zoneDetailsIds, sortZones_ids_toFinset]
    have hM : zonesModifiedBucketIds ((BpDiffZones.new bz az).modified s)
        = (modifiedIds (zoneDiffLoop (sortZonesById cb.zones)
            (sortZonesById ca.zones)).modified).toFinset := by
      simp only [BpDiffZones.new, hb, ha]
      split
      next hc => simp [zonesModifiedBucketIds, List.isEmpty_iff.mp hc,
        modifiedIds]
      next => simp [zonesModifiedBucketIds, sortModifiedZones_ids_toFinset]
    have hE : zoneErrorsBucketIds ((BpDiffZones.new bz az).errors s)
        = (errorIds (zoneDiffLoop (sortZonesById cb.zones)
            (sortZonesById ca.zones)).errors).toFinset := by
      simp only [BpDiffZones.new, hb, ha]
      split
      next hc => simp [zoneErrorsBucketIds, List.isEmpty_iff.mp hc, errorIds]
      next => simp [zoneErrorsBucketIds]
    have hsubR : (zoneIds (zoneDiffLoop (sortZonesById cb.zones)
            (sortZonesById ca.zones)).removed).toFinset
        ⊆ (zoneIds (sortZonesById cb.zones)).toFinset := by
      rw [← hsumF]
      intro x hx
      simp only [Finset.mem_union]
      tauto
    have hsubU : (zoneIds (zoneDiffLoop (sortZonesById cb.zones)
            (sortZonesById ca.zones)).unchanged).toFinset
        ⊆ (zoneIds (sortZonesById cb.zones)).toFinset := by
      rw [← hsumF]
      intro x hx
      simp only [Finset.mem_union]
      tauto
    have hsubM : (modifiedIds (zoneDiffLoop (sortZonesById cb.zones)
            (sortZonesById ca.zones)).modified).toFinset
        ⊆ (zoneIds (sortZonesById cb.zones)).toFinset := by
      rw [← hsumF]
      intro x hx
      simp only [Finset.mem_union]
      tauto
    have hsubE : (errorIds (zoneDiffLoop (sortZonesById cb.zones)
            (sortZonesById ca.zones)).errors).toFinset
        ⊆ (zoneIds (sortZonesById cb.zones)).toFinset := by
      rw [← hsumF]
      intro x hx
      simp only [Finset.mem_union]
      tauto
    have hdA : ∀ X : Finset ZoneId,
        X ⊆ (zoneIds (sortZonesById cb.zones)).toFinset →
        Disjoint ((zoneIds (sortZonesById ca.zones)).toFinset
          \ (zoneIds (sortZonesById cb.zones)).toFinset) X := by
      intro X hsub
      rw [Finset.disjoint_left]
      intro x hx hy
      exact (Finset.mem_sdiff.mp hx).2 (hsub hy)
    constructor
    · rw [hA, hR, hU, hM, hE, haddF]
      simp only [List.pairwise_cons, List.mem_cons, List.not_mem_nil]
      refine ⟨?_, ?_, ?_, fun y hy => ?_, ?_⟩
      · intro y hy
        rcases hy with rfl | rfl | rfl | rfl | h
        · exact hdA _ hsubR
        · exact hdA _ hsubU
        · exact hdA _ hsubM
        · exact hdA _ hsubE
        · simp at h
      · intro y hy
        rcases hy with rfl | rfl | rfl | h
        · exact hdisj.1.symm
        · exact hdisj.2.2.2.1
        · exact hdisj.2.2.2.2.1
        · simp at h
      · intro y hy
        rcases hy with rfl | rfl | h
        · exact hdisj.2.1
        · exact hdisj.2.2.1
        · simp at h
      · rcases hy with rfl | h
        · exact hdisj.2.2.2.2.2
        · simp at h
      · exact ⟨fun y hy => absurd hy id, List.Pairwise.nil⟩
    · rw [hA, hR, hU, hM, hE, haddF]
      have hcfgb : configZoneIds (some cb)
          = (zoneIds (sortZonesById cb.zones)).toFinset := by
        simp only [configZoneIds]
        exact (List.toFinset_eq_of_perm _ _ (sortZonesById_ids_perm _)).symm
      have hcfga : configZoneIds (some ca)
          = (zoneIds (sortZonesById ca.zones)).toFinset := by
        simp only [configZoneIds]
        exact (List.toFinset_eq_of_perm _ _ (sortZonesById_ids_perm _)).symm
      rw [hcfgb, hcfga]
      ext x
      have hxs := Finset.ext_iff.mp hsumF x
      simp only [Finset.mem_union] at hxs
      simp only [Finset.mem_union, Finset.mem_sdiff]
      tauto

/-- Per-host partition law for the dataset diff. -/
theorem datasetsPartitionLemma
    (bds : SledId → Option BlueprintOrCollectionDatasetsConfig)
    (ads : SledId → Option BlueprintDatasetsConfig) (s : SledId)
    (hbds : datasetsConfigNodupB (bds s))
    (hads : datasetsConfigNodupA (ads s)) :
    List.Pairwise (fun x y => Disjoint x y)
      [datasetDetailsIds ((BpDiffDatasets.new bds ads).added s),
       datasetDetailsIds ((BpDiffDatasets.new bds ads).removed s),
       datasetDetailsIds ((BpDiffDatasets.new bds ads).unchanged s),
       datasetsModifiedBucketIds ((BpDiffDatasets.new bds ads).modified s)]
    ∧ datasetDetailsIds ((BpDiffDatasets.new bds ads).added s)
        ∪ datasetDetailsIds ((BpDiffDatasets.new bds ads).removed s)
        ∪ datasetDetailsIds ((BpDiffDatasets.new bds ads).unchanged s)
        ∪ datasetsModifiedBucketIds ((BpDiffDatasets.new bds ads).modified s)
      = beforeDatasetIds (bds s) ∪ afterDatasetIds (ads s) := by
  rcases hb : bds s with _ | cb <;> rcases ha : ads s with _ | ca
  · simp [BpDiffDatasets.new, hb, ha, datasetDetailsIds,
      datasetsModifiedBucketIds, beforeDatasetIds, afterDatasetIds]
  · have hA : datasetDetailsIds ((BpDiffDatasets.new bds ads).added s)
        = (datasetIds ca.datasets).toFinset := by
      simp only [BpDiffDatasets.new, hb, ha]
      split
      next hc =>
        simp [datasetDetailsIds, List.isEmpty_iff.mp hc, datasetIds]
      next =>
        simp only [datasetDetailsIds]
        exact List.toFinset_eq_of_perm _ _ (sortDatasetsById_ids_perm _)
    have hrest : datasetDetailsIds ((BpDiffDatasets.new bds ads).removed s) = ∅
        ∧ datasetDetailsIds ((BpDiffDatasets.new bds ads).unchanged s) = ∅
        ∧ datasetsModifiedBucketIds ((BpDiffDatasets.new bds ads).modified s)
          = ∅ := by
      refine ⟨?_, ?_, ?_⟩ <;>
        simp [BpDiffDatasets.new, hb, ha, datasetDetailsIds,
          datasetsModifiedBucketIds]
    rw [hA, hrest.1, hrest.2.1, hrest.2.2]
    constructor
    · simp
    · simp [beforeDatasetIds, afterDatasetIds]
  · have hR : datasetDetailsIds ((BpDiffDatasets.new bds ads).removed s)
        = (datasetIds cb.datasets).toFinset := by
      simp only [BpDiffDatasets.new, hb, ha, datasetDetailsIds]
      exact List.toFinset_eq_of_perm _ _ (sortDatasetsById_ids_perm _)
    have hrest : datasetDetailsIds ((BpDiffDatasets.new bds ads).added s) = ∅
        ∧ datasetDetailsIds ((BpDiffDatasets.new bds ads).unchanged s) = ∅
        ∧ datasetsModifiedBucketIds ((BpDiffDatasets.new bds ads).modified s)
          = ∅ := by
      refine ⟨?_, ?_, ?_⟩ <;>
        simp [BpDiffDatasets.new, hb, ha, datasetDetailsIds,
          datasetsModifiedBucketIds]
    rw [hR, hrest.1, hrest.2.1, hrest.2.2]
    constructor
    · simp
    · simp [beforeDatasetIds, afterDatasetIds]
  · rw [hb] at hbds
    rw [ha] at hads
    have hbn : (datasetIds (sortDatasetsById cb.datasets)).Nodup :=
      ((sortDatasetsById_ids_perm cb.datasets).nodup_iff).mpr hbds
    have han : (datasetIds (sortDatasetsById ca.datasets)).Nodup :=
      ((sortDatasetsById_ids_perm ca.datasets).nodup_iff).mpr hads
    have hpart := datasetDiffLoop_partition (sortDatasetsById cb.datasets)
      (sortDatasetsById ca.datasets)
    have hnodup : ((↑(datasetIds (datasetDiffLoop
            (sortDatasetsById cb.datasets)
            (sortDatasetsById ca.datasets)).unchanged)
        + ↑(datasetIds (datasetDiffLoop (sortDatasetsById cb.datasets)
            (sortDatasetsById ca.datasets)).removed)
        + ↑(modifiedDatasetIds (datasetDiffLoop (sortDatasetsById cb.datasets)
            (sortDatasetsById ca.datasets)).modified)) : Multiset DatasetId).Nodup := by
      rw [hpart]
      exact Multiset.coe_nodup.mpr hbn
    have hdisj := multiset_nodup_three hnodup
    have hsumF : (datasetIds (datasetDiffLoop (sortDatasetsById cb.datasets)
            (sortDatasetsById ca.datasets)).unchanged).toFinset
        ∪ (datasetIds (datasetDiffLoop (sortDatasetsById cb.datasets)
            (sortDatasetsById ca.datasets)).removed).toFinset
        ∪ (modifiedDatasetIds (datasetDiffLoop (sortDatasetsById cb.datasets)
            (sortDatasetsById ca.datasets)).modified).toFinset
        = (datasetIds (sortDatasetsById cb.datasets)).toFinset := by
      have h2 := congrArg Multiset.toFinset hpart
      simpa [Multiset.toFinset_add] using h2
    have haddF := datasetDiffLoop_added (sortDatasetsById cb.datasets)
      (sortDatasetsById ca.datasets) hbn han
    have hA : datasetDetailsIds ((BpDiffDatasets.new bds ads).added s)
        = (datasetIds (datasetDiffLoop (sortDatasetsById cb.datasets)
            (sortDatasetsById ca.datasets)).added).toFinset := by
      simp only [BpDiffDatasets.new, hb, ha]
      split
      next hc => simp [datasetDetailsIds, List.isEmpty_iff.mp hc, datasetIds]
      next => simp [datasetDetailsIds]
    have hR : datasetDetailsIds ((BpDiffDatasets.new bds ads).removed s)
        = (datasetIds (datasetDiffLoop (sortDatasetsById cb.datasets)
            (sortDatasetsById ca.datasets)).removed).toFinset := by
      simp only [BpDiffDatasets.new, hb, ha]
      split
      next hc => simp [datasetDetailsIds, List.isEmpty_iff.mp hc, datasetIds]
      next => simp [datasetDetailsIds]
    have hU : datasetDetailsIds ((BpDiffDatasets.new bds ads).unchanged s)
        = (datasetIds (datasetDiffLoop (sortDatasetsById cb.datasets)
            (sortDatasetsById ca.datasets)).unchanged).toFinset := by
      simp only [BpDiffDatasets.new, hb, ha]
      split
      next hc => simp [datasetDetailsIds, List.isEmpty_iff.mp hc, datasetIds]
      next => simp [datasetDetailsIds]
    have hM : datasetsModifiedBucketIds ((BpDiffDatasets.new bds ads).modified s)
        = (modifiedDatasetIds (datasetDiffLoop (sortDatasetsById cb.datasets)
            (sortDatasetsById ca.datasets)).modified).toFinset := by
      simp only [BpDiffDatasets.new, hb, ha]
      split
      next hc => simp [datasetsModifiedBucketIds, List.isEmpty_iff.mp hc,
        modifiedDatasetIds]
      next => simp [datasetsModifiedBucketIds]
    have hsubR : (datasetIds (datasetDiffLoop (sortDatasetsById cb.datasets)
            (sortDatasetsById ca.datasets)).removed).toFinset
        ⊆ (datasetIds (sortDatasetsById cb.datasets)).toFinset := by
      rw [← hsumF]
      intro x hx
      simp only [Finset.mem_union]
      tauto
    have hsubU : (datasetIds (datasetDiffLoop (sortDatasetsById cb.datasets)
            (sortDatasetsById ca.datasets)).unchanged).toFinset
        ⊆ (datasetIds (sortDatasetsById cb.datasets)).toFinset := by
      rw [← hsumF]
      intro x hx
      simp only [Finset.mem_union]
      tauto
    have hsubM : (modifiedDatasetIds (datasetDiffLoop
            (sortDatasetsById cb.datasets)
            (sortDatasetsById ca.datasets)).modified).toFinset
        ⊆ (datasetIds (sortDatasetsById cb.datasets)).toFinset := by
      rw [← hsumF]
      intro x hx
      simp only [Finset.mem_union]
      tauto
    have hdA : ∀ X : Finset DatasetId,
        X ⊆ (datasetIds (sortDatasetsById cb.datasets)).toFinset →
        Disjoint ((datasetIds (sortDatasetsById ca.datasets)).toFinset
          \ (datasetIds (sortDatasetsById cb.datasets)).toFinset) X := by
      intro X hsub
      rw [Finset.disjoint_left]
      intro x hx hy
      exact (Finset.mem_sdiff.mp hx).2 (hsub hy)
    constructor
    · rw [hA, hR, hU, hM, haddF]
      simp only [List.pairwise_cons, List.mem_cons, List.not_mem_nil]
      refine ⟨?_, ?_, fun y hy => ?_, ?_⟩
      · intro y hy
        rcases hy with rfl | rfl | rfl | h
        · exact hdA _ hsubR
        · exact hdA _ hsubU
        · exact hdA _ hsubM
        · simp at h
      · intro y hy
        rcases hy with rfl | rfl | h
        · exact hdisj.1.symm
        · exact hdisj.2.2
        · simp at h
      · rcases hy with rfl | h
        · exact hdisj.2.1
        · simp at h
      · exact ⟨fun y hy => absurd hy id, List.Pairwise.nil⟩
    · rw [hA, hR, hU, hM, haddF]
      have hcfgb : beforeDatasetIds (some cb)
          = (datasetIds (sortDatasetsById cb.datasets)).toFinset := by
        simp only [beforeDatasetIds]
        exact (List.toFinset_eq_of_perm _ _ (sortDatasetsById_ids_perm _)).symm
      have hcfga : afterDatasetIds (some ca)
          = (datasetIds (sortDatasetsById ca.datasets)).toFinset := by
        simp only [afterDatasetIds]
        exact (List.toFinset_eq_of_perm _ _ (sortDatasetsById_ids_perm _)).symm
      rw [hcfgb, hcfga]
      ext x
      have hxs := Finset.ext_iff.mp hsumF x
      simp only [Finset.mem_union] at hxs
      simp only [Finset.mem_union, Finset.mem_sdiff]
      tauto

/-- C1: for every host and category, the id sets of the diff buckets
(added / removed / unchanged / modified, plus errored for zones) are
pairwise disjoint, and their union — counting modified and errored pairs
once by their before-id — equals the union of the before-ids and
after-ids of that host and category. -/
theorem C1_partition
    (bz az : SledId → Option BlueprintZonesConfig)
    (bd : SledId → Option BlueprintOrCollectionDisksConfig)
    (ad : SledId → Option BlueprintPhysicalDisksConfig)
    (bds : SledId → Option BlueprintOrCollectionDatasetsConfig)
    (ads : SledId → Option BlueprintDatasetsConfig)
    (s : SledId)
    (hbz : zonesConfigNodup (bz s)) (haz : zonesConfigNodup (az s))
    (hbds : datasetsConfigNodupB (bds s))
    (hads : datasetsConfigNodupA (ads s)) :
    (List.Pairwise (fun x y => Disjoint x y)
        [zoneDetailsIds ((BpDiffZones.new bz az).added s),
         zoneDetailsIds ((BpDiffZones.new bz az).removed s),
         zoneDetailsIds ((BpDiffZones.new bz az).unchanged s),
         zonesModifiedBucketIds ((BpDiffZones.new bz az).modified s),
         zoneErrorsBucketIds ((BpDiffZones.new bz az).errors s)]
      ∧ zoneDetailsIds ((BpDiffZones.new bz az).added s)
          ∪ zoneDetailsIds ((BpDiffZones.new bz az).removed s)
          ∪ zoneDetailsIds ((BpDiffZones.new bz az).unchanged s)
          ∪ zonesModifiedBucketIds ((BpDiffZones.new bz az).modified s)
          ∪ zoneErrorsBucketIds ((BpDiffZones.new bz az).errors s)
        = configZoneIds (bz s) ∪ configZoneIds (az s))
    ∧ (List.Pairwise (fun x y => Disjoint x y)
        [diskDetailsSet ((BpDiffPhysicalDisks.new bd ad).added s),
         diskDetailsSet ((BpDiffPhysicalDisks.new bd ad).removed s),
         diskDetailsSet ((BpDiffPhysicalDisks.new bd ad).unchanged s)]
      ∧ diskDetailsSet ((BpDiffPhysicalDisks.new bd ad).added s)
          ∪ diskDetailsSet ((BpDiffPhysicalDisks.new bd ad).removed s)
          ∪ diskDetailsSet ((BpDiffPhysicalDisks.new bd ad).unchanged s)
        = beforeDiskSet (bd s) ∪ afterDiskSet (ad s))
    ∧ (List.Pairwise (fun x y => Disjoint x y)
        [datasetDetailsIds ((BpDiffDatasets.new bds ads).added s),
         datasetDetailsIds ((BpDiffDatasets.new bds ads).removed s),
         datasetDetailsIds ((BpDiffDatasets.new bds ads).unchanged s),
         datasetsModifiedBucketIds ((BpDiffDatasets.new bds ads).modified s)]
      ∧ datasetDetailsIds ((BpDiffDatasets.new bds ads).added s)
          ∪ datasetDetailsIds ((BpDiffDatasets.new bds ads).removed s)
          ∪ datasetDetailsIds ((BpDiffDatasets.new bds ads).unchanged s)
          ∪ datasetsModifiedBucketIds ((BpDiffDatasets.new bds ads).modified s)
        = beforeDatasetIds (bds s) ∪ afterDatasetIds (ads s)) :=
  ⟨zonesPartitionLemma bz az s hbz haz, disksPartitionLemma bd ad s,
   datasetsPartitionLemma bds ads s hbds hads⟩

def zonesBefore1 : SledId → Option BlueprintZonesConfig :=
  fun s => if s = 0 then some { generation := 1, zones := [zoneA1] } else none

def zonesAfter1 : SledId → Option BlueprintZonesConfig :=
  fun s => if s = 0 then some { generation := 2, zones := [zoneA2] } else none

def datasetD1 : BlueprintDatasetConfigForDiff := { id := 1, fields := ["a"] }

def datasetD2 : BlueprintDatasetConfigForDiff := { id := 2, fields := ["b"] }

def datasetsBefore1 : SledId → Option BlueprintOrCollectionDatasetsConfig :=
  fun s => if s = 0 then some { generation := some 1, datasets := [datasetD1] }
           else none

def datasetsAfter1 : SledId → Option BlueprintDatasetsConfig :=
  fun s =>
    if s = 0 then some { generation := 2, datasets := [datasetD1, datasetD2] }
    else none

/-- Witness for C1 at a concrete pair of snapshots. -/
theorem C1_partition_witness :
    zonesConfigNodup (zonesBefore1 0) ∧ zonesConfigNodup (zonesAfter1 0)
    ∧ datasetsConfigNodupB (datasetsBefore1 0)
    ∧ datasetsConfigNodupA (datasetsAfter1 0)
    ∧ (List.Pairwise (fun x y => Disjoint x y)
        [zoneDetailsIds ((BpDiffZones.new zonesBefore1 zonesAfter1).added 0),
         zoneDetailsIds ((BpDiffZones.new zonesBefore1 zonesAfter1).removed 0),
         zoneDetailsIds
           ((BpDiffZones.new zonesBefore1 zonesAfter1).unchanged 0),
         zonesModifiedBucketIds
           ((BpDiffZones.new zonesBefore1 zonesAfter1).modified 0),
         zoneErrorsBucketIds
           ((BpDiffZones.new zonesBefore1 zonesAfter1).errors 0)]
      ∧ zoneDetailsIds ((BpDiffZones.new zonesBefore1 zonesAfter1).added 0)
          ∪ zoneDetailsIds
              ((BpDiffZones.new zonesBefore1 zonesAfter1).removed 0)
          ∪ zoneDetailsIds
              ((BpDiffZones.new zonesBefore1 zonesAfter1).unchanged 0)
          ∪ zonesModifiedBucketIds
              ((BpDiffZones.new zonesBefore1 zonesAfter1).modified 0)
          ∪ zoneErrorsBucketIds
              ((BpDiffZones.new zonesBefore1 zonesAfter1).errors 0)
        = configZoneIds (zonesBefore1 0) ∪ configZoneIds (zonesAfter1 0))
    ∧ (List.Pairwise (fun x y => Disjoint x y)
        [diskDetailsSet
           ((BpDiffPhysicalDisks.new sampleDisksBefore sampleDisksAfter).added 0),
         diskDetailsSet
           ((BpDiffPhysicalDisks.new sampleDisksBefore sampleDisksAfter).removed 0),
         diskDetailsSet
           ((BpDiffPhysicalDisks.new sampleDisksBefore sampleDisksAfter).unchanged 0)]
      ∧ diskDetailsSet
            ((BpDiffPhysicalDisks.new sampleDisksBefore sampleDisksAfter).added 0)
          ∪ diskDetailsSet
              ((BpDiffPhysicalDisks.new sampleDisksBefore sampleDisksAfter).removed 0)
          ∪ diskDetailsSet
              ((BpDiffPhysicalDisks.new sampleDisksBefore sampleDisksAfter).unchanged 0)
        = beforeDiskSet (sampleDisksBefore 0) ∪ afterDiskSet (sampleDisksAfter 0))
    ∧ (List.Pairwise (fun x y => Disjoint x y)
        [datasetDetailsIds
           ((BpDiffDatasets.new datasetsBefore1 datasetsAfter1).added 0),
         datasetDetailsIds
           ((BpDiffDatasets.new datasetsBefore1 datasetsAfter1).removed 0),
         datasetDetailsIds
           ((BpDiffDatasets.new datasetsBefore1 datasetsAfter1).unchanged 0),
         datasetsModifiedBucketIds
           ((BpDiffDatasets.new datasetsBefore1 datasetsAfter1).modified 0)]
      ∧ datasetDetailsIds
            ((BpDiffDatasets.new datasetsBefore1 datasetsAfter1).added 0)
          ∪ datasetDetailsIds
              ((BpDiffDatasets.new datasetsBefore1 datasetsAfter1).removed 0)
          ∪ datasetDetailsIds
              ((BpDiffDatasets.new datasetsBefore1 datasetsAfter1).unchanged 0)
          ∪ datasetsModifiedBucketIds
              ((BpDiffDatasets.new datasetsBefore1 datasetsAfter1).modified 0)
        = beforeDatasetIds (datasetsBefore1 0)
            ∪ afterDatasetIds (datasetsAfter1 0)) := by
  have h := C1_partition zonesBefore1 zonesAfter1 sampleDisksBefore
    sampleDisksAfter datasetsBefore1 datasetsAfter1 0 (by decide) (by decide)
    (by decide) (by decide)
  exact ⟨by decide, by decide, by decide, by decide, h.1, h.2.1, h.2.2⟩

/-! ### Claim C8: bucket ordering -/

theorem strLtB_trans : ∀ l1 l2 l3 : List Char, strLtB l1 l2 = true →
    strLtB l2 l3 = true → strLtB l1 l3 = true := by
  intro l1
  induction l1 with
  | nil =>
    intro l2 l3 h1 h2
    cases l2 with
    | nil => cases h1
    | cons d ds =>
      cases l3 with
      | nil => cases h2
      | cons e es => rfl
  | cons c cs ih =>
    intro l2 l3 h1 h2
    cases l2 with
    | nil => cases h1
    | cons d ds =>
      cases l3 with
      | nil => cases h2
      | cons e es =>
        simp only [strLtB] at h1 h2 ⊢
        by_cases hcd : c.toNat < d.toNat
        · by_cases hde : d.toNat < e.toNat
          · have : c.toNat < e.toNat := by omega
            simp [this]
          · by_cases hed : e.toNat < d.toNat
            · simp [hde, hed] at h2
            · have : c.toNat < e.toNat := by omega
              simp [this]
        · by_cases hdc : d.toNat < c.toNat
          · simp [hcd, hdc] at h1
          · by_cases hde : d.toNat < e.toNat
            · have : c.toNat < e.toNat := by omega
              simp [this]
            · by_cases hed : e.toNat < d.toNat
              · simp [hde, hed] at h2
              · have hce : ¬ c.toNat < e.toNat := by omega
                have hec : ¬ e.toNat < c.toNat := by omega
                simp only [hcd, hdc, if_false, hde, hed] at h1 h2
                simp [hce, hec, ih ds es h1 h2]

theorem strLtB_trichotomy : ∀ l1 l2 : List Char,
    strLtB l1 l2 = true ∨ l1 = l2 ∨ strLtB l2 l1 = true := by
  intro l1
  induction l1 with
  | nil =>
    intro l2
    cases l2 with
    | nil => exact Or.inr (Or.inl rfl)
    | cons d ds => exact Or.inl rfl
  | cons c cs ih =>
    intro l2
    cases l2 with
    | nil => exact Or.inr (Or.inr rfl)
    | cons d ds =>
      by_cases hcd : c.toNat < d.toNat
      · exact Or.inl (by simp [strLtB, hcd])
      · by_cases hdc : d.toNat < c.toNat
        · exact Or.inr (Or.inr (by simp [strLtB, hdc]))
        · have hval : c.toNat = d.toNat := by omega
          have hc : c = d := Char.eq_of_val_eq (UInt32.ext hval)
          subst hc
          rcases ih ds with h | h | h
          · exact Or.inl (by simp [strLtB, h])
          · exact Or.inr (Or.inl (by rw [h]))
          · exact Or.inr (Or.inr (by simp [strLtB, h]))

theorem string_eq_of_data_eq {a b : ZoneKind} (h : a.data = b.data) :
    a = b := by
  cases a
  cases b
  exact congrArg String.mk h

theorem keyLe_trans (x y z : ZoneKind × ZoneId) (h1 : keyLe x y = true)
    (h2 : keyLe y z = true) : keyLe x z = true := by
  simp only [keyLe, Bool.or_eq_true, Bool.and_eq_true, beq_iff_eq,
    decide_eq_true_eq] at h1 h2 ⊢
  rcases h1 with h1 | ⟨h1e, h1le⟩ <;> rcases h2 with h2 | ⟨h2e, h2le⟩
  · exact Or.inl (strLtB_trans _ _ _ h1 h2)
  · exact Or.inl (h2e ▸ h1)
  · exact Or.inl (h1e ▸ h2)
  · exact Or.inr ⟨h1e.trans h2e, h1le.trans h2le⟩

theorem keyLe_total (x y : ZoneKind × ZoneId) :
    (keyLe x y || keyLe y x) = true := by
  simp only [keyLe, Bool.or_eq_true, Bool.and_eq_true, beq_iff_eq,
    decide_eq_true_eq]
  rcases strLtB_trichotomy x.1.data y.1.data with h | h | h
  · exact Or.inl (Or.inl h)
  · have hxy : x.1 = y.1 := string_eq_of_data_eq h
    rcases Nat.le_total x.2 y.2 with h2 | h2
    · exact Or.inl (Or.inr ⟨hxy, h2⟩)
    · exact Or.inr (Or.inr ⟨hxy.symm, h2⟩)
  · exact Or.inr (Or.inl h)

theorem zoneLe_trans (a b c : BlueprintZoneConfig) (h1 : zoneLe a b = true)
    (h2 : zoneLe b c = true) : zoneLe a c = true :=
  keyLe_trans _ _ _ h1 h2

theorem zoneLe_total (a b : BlueprintZoneConfig) :
    (zoneLe a b || zoneLe b a) = true :=
  keyLe_total _ _

theorem modifiedZoneLe_trans (a b c : ModifiedZone)
    (h1 : modifiedZoneLe a b = true) (h2 : modifiedZoneLe b c = true) :
    modifiedZoneLe a c = true :=
  keyLe_trans _ _ _ h1 h2

theorem modifiedZoneLe_total (a b : ModifiedZone) :
    (modifiedZoneLe a b || modifiedZoneLe b a) = true :=
  keyLe_total _ _

theorem zoneIdLe_trans (a b c : BlueprintZoneConfig)
    (h1 : zoneIdLe a b = true) (h2 : zoneIdLe b c = true) :
    zoneIdLe a c = true := by
  simp only [zoneIdLe, decide_eq_true_eq] at h1 h2 ⊢
  exact h1.trans h2

theorem zoneIdLe_total (a b : BlueprintZoneConfig) :
    (zoneIdLe a b || zoneIdLe b a) = true := by
  simp only [zoneIdLe, Bool.or_eq_true, decide_eq_true_eq]
  exact Nat.le_total _ _

theorem sortZones_sorted (l : List BlueprintZoneConfig) :
    (sortZones l).Pairwise (fun a b => zoneLe a b = true) :=
  sortBy_sorted zoneLe zoneLe_trans zoneLe_total l

theorem sortModifiedZones_sorted (l : List ModifiedZone) :
    (sortModifiedZones l).Pairwise (fun a b => modifiedZoneLe a b = true) :=
  sortBy_sorted modifiedZoneLe modifiedZoneLe_trans modifiedZoneLe_total l

theorem sortZonesById_sorted (l : List BlueprintZoneConfig) :
    (sortZonesById l).Pairwise (fun a b => a.id ≤ b.id) := by
  have h := sortBy_sorted zoneIdLe zoneIdLe_trans zoneIdLe_total l
  exact h.imp (fun hab => by simpa [zoneIdLe, decide_eq_true_eq] using hab)

/-- The error list of the per-sled loop is ordered by before-zone id when
the before input is. -/
theorem zoneDiffLoop_errors_id_sorted (bs as : List BlueprintZoneConfig)
    (hsort : bs.Pairwise (fun a b => a.id ≤ b.id)) :
    (zoneDiffLoop bs as).errors.Pairwise
      (fun x y => x.zone_before.id ≤ y.zone_before.id) := by
  have hsub := zoneDiffLoop_errors_sublist bs as
  have hp := hsort.sublist hsub
  rw [List.pairwise_map] at hp
  exact hp

def zonesOutOfOrder : SledId → Option BlueprintZonesConfig :=
  fun s => if s = 0 then some { generation := 1, zones := [zoneB2, zoneA1] }
           else none

/-- Counterexample to C8 as stated: for a host present only in the after
snapshot, the added bucket keeps the input zone order, which need not be
sorted by (kind, id). -/
theorem C8_counterexample :
    (BpDiffZones.new (fun _ => none) zonesOutOfOrder).added 0
      = some { generation_before := none, generation_after := some 1,
               zones := [zoneB2, zoneA1] }
    ∧ ¬ List.Pairwise (fun a b => zoneLe a b = true) [zoneB2, zoneA1] := by
  exact ⟨by decide, by decide⟩

/-- C8 amended: for a host present in both snapshots the added, removed,
unchanged, and modified zone lists are sorted in nondecreasing
(kind, id) order and the errored list is in nondecreasing before-id
order; for a before-only host the removed list is sorted by (kind, id);
for an after-only host the added list preserves the input zone order. -/
theorem C8_sorted_buckets (bz az : SledId → Option BlueprintZonesConfig)
    (s : SledId) :
    (∀ cb ca, bz s = some cb → az s = some ca →
      (∀ d, (BpDiffZones.new bz az).added s = some d →
        d.zones.Pairwise (fun a b => zoneLe a b = true))
      ∧ (∀ d, (BpDiffZones.new bz az).removed s = some d →
          d.zones.Pairwise (fun a b => zoneLe a b = true))
      ∧ (∀ d, (BpDiffZones.new bz az).unchanged s = some d →
          d.zones.Pairwise (fun a b => zoneLe a b = true))
      ∧ (∀ m, (BpDiffZones.new bz az).modified s = some m →
          m.zones.Pairwise (fun a b => modifiedZoneLe a b = true))
      ∧ (∀ e, (BpDiffZones.new bz az).errors s = some e →
          e.errors.Pairwise
            (fun x y => x.zone_before.id ≤ y.zone_before.id)))
    ∧ (∀ cb, bz s = some cb → az s = none →
        ∀ d, (BpDiffZones.new bz az).removed s = some d →
          d.zones.Pairwise (fun a b => zoneLe a b = true))
    ∧ (∀ ca, bz s = none → az s = some ca →
        ∀ d, (BpDiffZones.new bz az).added s = some d →
          d.zones = ca.zones) := by
  refine ⟨?_, ?_, ?_⟩
  · intro cb ca hb ha
    refine ⟨?_, ?_, ?_, ?_, ?_⟩
    · intro d hd
      simp only [BpDiffZones.new, hb, ha] at hd
      split at hd
      next => exact Option.noConfusion hd
      next =>
        cases hd
        exact sortZones_sorted _
    · intro d hd
      simp only [BpDiffZones.new, hb, ha] at hd
      split at hd
      next => exact Option.noConfusion hd
      next =>
        cases hd
        exact sortZones_sorted _
    · intro d hd
      simp only [BpDiffZones.new, hb, ha] at hd
      split at hd
      next => exact Option.noConfusion hd
      next =>
        cases hd
        exact sortZones_sorted _
    · intro m hm
      simp only [BpDiffZones.new, hb, ha] at hm
      split at hm
      next => exact Option.noConfusion hm
      next =>
        cases hm
        exact sortModifiedZones_sorted _
    · intro e he
      simp only [BpDiffZones.new, hb, ha] at he
      split at he
      next => exact Option.noConfusion he
      next =>
        cases he
        exact zoneDiffLoop_errors_id_sorted _ _ (sortZonesById_sorted _)
  · intro cb hb ha d hd
    simp only [BpDiffZones.new, hb, ha] at hd
    split at hd
    next => exact Option.noConfusion hd
    next =>
      cases hd
      exact sortZones_sorted _
  · intro ca hb ha d hd
    simp only [BpDiffZones.new, hb, ha] at hd
    split at hd
    next => exact Option.noConfusion hd
    next =>
      cases hd
      rfl

/-- Witness for the amended C8 at concrete inputs. -/
theorem C8_sorted_buckets_witness :
    (BpDiffZones.new zonesBefore1 zonesAfter1).modified 0
      = some { generation_before := 1, generation_after := 2,
               zones := [{ prior_disposition :=
                             BlueprintZoneDisposition.inService,
                           zone := zoneA2 }] }
    ∧ List.Pairwise (fun a b => modifiedZoneLe a b = true)
        ([{ prior_disposition := BlueprintZoneDisposition.inService,
            zone := zoneA2 }] : List ModifiedZone)
    ∧ (BpDiffZones.new (fun _ => none) zonesOutOfOrder).added 0
      = some { generation_before := none, generation_after := some 1,
               zones := [zoneB2, zoneA1] }
    ∧ ({ generation_before := none, generation_after := some 1,
         zones := [zoneB2, zoneA1] } : BpDiffZoneDetails).zones
      = ({ generation := 1, zones := [zoneB2, zoneA1] }
          : BlueprintZonesConfig).zones := by
  refine ⟨by decide, ?_, by decide, ?_⟩
  · exact (((C8_sorted_buckets zonesBefore1 zonesAfter1 0).1
      { generation := 1, zones := [zoneA1] }
      { generation := 2, zones := [zoneA2] } rfl rfl).2.2.2.1)
      { generation_before := 1, generation_after := 2,
        zones := [{ prior_disposition := BlueprintZoneDisposition.inService,
                    zone := zoneA2 }] } (by decide)
  · exact ((C8_sorted_buckets (fun _ => none) zonesOutOfOrder 0).2.2)
      { generation := 1, zones := [zoneB2, zoneA1] } rfl rfl
      { generation_before := none, generation_after := some 1,
        zones := [zoneB2, zoneA1] } (by decide)
